import Mathlib

/-!
Shallow embedding of the customer-service LLM benchmark pipeline
(`src/benchmark/src`): the evaluation data model (`evaluation/models.py`),
the LLM judge (`evaluation/judge.py`), the multi-judge consensus
(`evaluation/multi_judge.py`), and the benchmark executor
(`benchmark/executor.py` and `benchmark/models.py`).

Modelling conventions:
* Python `float` values are modelled as exact rationals (`ℚ`); the
  concrete arithmetic exercised by the claims (weighted averages over
  the default weights, means of small integers) is exact in IEEE
  doubles as well.
* Python `int` values are modelled as `ℤ`.
* Fallible Python code is modelled with `Option`/`Except`; a raised
  exception is an `.error` carrying a rendering of `str(e)`.
* Network calls, the event-loop clock and other ambient effects are
  passed in explicitly as oracle arguments.
-/

/-! ## Evaluation data model (`evaluation/models.py`) -/

/-- `EvaluationCriteria(str, Enum)`: the fixed closed criterion set. -/
inductive EvaluationCriteria where
  | task_performance
  | response_quality
  | language_quality
  | tool_usage
  | factual_accuracy
deriving DecidableEq

/-- Declaration (= iteration) order of the `EvaluationCriteria` enum. -/
def EvaluationCriteria.all : List EvaluationCriteria :=
  [.task_performance, .response_quality, .language_quality, .tool_usage, .factual_accuracy]

/-- The enum's string value. -/
def EvaluationCriteria.value : EvaluationCriteria → String
  | .task_performance => "task_performance"
  | .response_quality => "response_quality"
  | .language_quality => "language_quality"
  | .tool_usage => "tool_usage"
  | .factual_accuracy => "factual_accuracy"

/-- `EvaluationCriteria(name)`: lookup by value; the `ValueError` raised on an
unknown name is modelled as `none`. -/
def EvaluationCriteria.ofValue : String → Option EvaluationCriteria
  | "task_performance" => some .task_performance
  | "response_quality" => some .response_quality
  | "language_quality" => some .language_quality
  | "tool_usage" => some .tool_usage
  | "factual_accuracy" => some .factual_accuracy
  | _ => none

/-- `ScoreLevel(str, Enum)`: the five ordinal score labels. -/
inductive ScoreLevel where
  | excellent
  | good
  | satisfactory
  | poor
  | very_poor
deriving DecidableEq

/-- `ScoreLevel(value)`: lookup by value; `ValueError` modelled as `none`. -/
def ScoreLevel.ofValue : String → Option ScoreLevel
  | "excellent" => some .excellent
  | "good" => some .good
  | "satisfactory" => some .satisfactory
  | "poor" => some .poor
  | "very_poor" => some .very_poor
  | _ => none

/-- The `SCORE_VALUES` mapping from levels to their canonical numeric value. -/
def SCORE_VALUES : ScoreLevel → ℤ
  | .excellent => 5
  | .good => 4
  | .satisfactory => 3
  | .poor => 2
  | .very_poor => 1

/-- `CriteriaScore`: a per-criterion verdict.  `score_value` is stored as a
field, exactly as in the pydantic model. -/
structure CriteriaScore where
  criteria : EvaluationCriteria
  score : ScoreLevel
  reasoning : String
  score_value : ℤ
deriving DecidableEq

/-- `CriteriaScore.__init__` as used everywhere in the repository: the caller
supplies `criteria`, `score` and `reasoning` but never `score_value`, so the
constructor derives `score_value` from the level via `SCORE_VALUES`. -/
def CriteriaScore.make (criteria : EvaluationCriteria) (score : ScoreLevel)
    (reasoning : String) : CriteriaScore :=
  ⟨criteria, score, reasoning, SCORE_VALUES score⟩

/-- `EvaluationConfig`: judge model name, per-criterion weights (a `Dict`
that may omit criteria, read with default `0.2`) and the judge timeout. -/
structure EvaluationConfig where
  judge_model : String
  temperature : ℚ
  criteria_weights : EvaluationCriteria → Option ℚ
  max_retries : ℤ
  timeout_seconds : ℤ

/-- The default `criteria_weights` dictionary of `EvaluationConfig`. -/
def defaultCriteriaWeights : EvaluationCriteria → Option ℚ
  | .task_performance => some (30 / 100)
  | .response_quality => some (25 / 100)
  | .language_quality => some (15 / 100)
  | .tool_usage => some (15 / 100)
  | .factual_accuracy => some (15 / 100)

/-- `EvaluationConfig()` with all defaults. -/
def EvaluationConfig.default : EvaluationConfig :=
  { judge_model := "gpt-4o"
    temperature := 1 / 10
    criteria_weights := defaultCriteriaWeights
    max_retries := 2
    timeout_seconds := 60 }

/-- `LLMJudge._calculate_weighted_score`: fold over the parsed scores,
accumulating `score_value * weight` and the weight itself, then divide;
`3.0` when the accumulated weight is not positive. -/
def calculateWeightedScore (config : EvaluationConfig) (scores : List CriteriaScore) : ℚ :=
  let totals : ℚ × ℚ := scores.foldl
    (fun acc s =>
      let weight := (config.criteria_weights s.criteria).getD (2 / 10)
      (acc.1 + (s.score_value : ℚ) * weight, acc.2 + weight))
    (0, 0)
  if totals.2 > 0 then totals.1 / totals.2 else 3

/-! ## Theorem-side helper formulas for the weighted average. -/

/-- Spec-side numerator: sum of `score_value * weight` over the criteria
actually present in the parsed result. -/
def weightedScoreSum (config : EvaluationConfig) (scores : List CriteriaScore) : ℚ :=
  (scores.map (fun s => (s.score_value : ℚ) * (config.criteria_weights s.criteria).getD (2 / 10))).sum

/-- Spec-side denominator: sum of the weights of the criteria present. -/
def weightSum (config : EvaluationConfig) (scores : List CriteriaScore) : ℚ :=
  (scores.map (fun s => (config.criteria_weights s.criteria).getD (2 / 10))).sum

/-! ## Model of Python string and `json` module behaviour

The judge and the executor lean on `str.strip`, `str.find`/`rfind`,
`json.loads` and `json.JSONDecoder.raw_decode`.  These are modelled here
over `List Char`.  The decoder follows the `json` module's grammar: JSON
whitespace is space/tab/newline/carriage-return, numbers without a
fraction or exponent become Python `int`s, objects deduplicate keys with
dict insertion semantics (last value wins, first position kept).  The
non-finite constants (`NaN`, `Infinity`) the Python decoder also accepts
are outside the model (floating point); no claim touches them. -/

/-- JSON whitespace as accepted by Python's `json` decoder. -/
def isJsonWs (c : Char) : Bool :=
  c == ' ' || c == '\t' || c == '\n' || c == '\r'

/-- Whitespace stripped by Python's `str.strip()` (ASCII portion). -/
def isPyStripWs (c : Char) : Bool :=
  c == ' ' || c == '\t' || c == '\n' || c == '\r' || c == '\x0b' || c == '\x0c'

/-- Characters matched by `\s` in Python's `re` module (ASCII portion). -/
def isReWs (c : Char) : Bool :=
  c == ' ' || c == '\t' || c == '\n' || c == '\r' || c == '\x0b' || c == '\x0c'

/-- `str.strip()`. -/
def pyStrip (l : List Char) : List Char :=
  ((l.dropWhile isPyStripWs).reverse.dropWhile isPyStripWs).reverse

/-- A parsed JSON value as materialised by `json.loads`: note the
`int`/`float` distinction, which `LLMJudge._parse_evaluation_response`
branches on via `isinstance(score_value, int)`. -/
inductive JsonValue where
  | null
  | bool (b : Bool)
  | int (n : ℤ)
  | float (q : ℚ)
  | str (s : String)
  | arr (elems : List JsonValue)
  | obj (fields : List (String × JsonValue))

/-- Python dict insertion: overwrite the value in place if the key exists,
otherwise append. -/
def dictInsert (fields : List (String × JsonValue)) (k : String) (v : JsonValue) :
    List (String × JsonValue) :=
  if fields.any (fun p => p.1 == k) then
    fields.map (fun p => if p.1 == k then (k, v) else p)
  else
    fields ++ [(k, v)]

/-- Python dict lookup (`d[k]` / `d.get(k)`); keys are unique after
`dictInsert`, so the first hit is the only one. -/
def dictGet (fields : List (String × JsonValue)) (k : String) : Option JsonValue :=
  (fields.find? (fun p => p.1 == k)).map (·.2)

/-- Hexadecimal digit test for `\uXXXX` escapes. -/
def isHexDigitChar (c : Char) : Bool :=
  c.isDigit || ('a' ≤ c && c ≤ 'f') || ('A' ≤ c && c ≤ 'F')

/-- Value of a hexadecimal digit. -/
def hexVal (c : Char) : ℕ :=
  if c.isDigit then c.toNat - '0'.toNat
  else if 'a' ≤ c && c ≤ 'f' then c.toNat - 'a'.toNat + 10
  else if 'A' ≤ c && c ≤ 'F' then c.toNat - 'A'.toNat + 10
  else 0

/-- String-body scanner of the decoder: the opening quote is already
consumed; returns the decoded string and the remaining input.  Unescaped
control characters are rejected (strict mode); `\uXXXX` escapes become
the character with that code point. -/
def parseJsonStringBody (acc : List Char) : List Char → Option (String × List Char)
  | [] => none
  | '"' :: rest => some (String.mk acc.reverse, rest)
  | '\\' :: esc =>
    match esc with
    | '"' :: r => parseJsonStringBody ('"' :: acc) r
    | '\\' :: r => parseJsonStringBody ('\\' :: acc) r
    | '/' :: r => parseJsonStringBody ('/' :: acc) r
    | 'b' :: r => parseJsonStringBody ('\x08' :: acc) r
    | 'f' :: r => parseJsonStringBody ('\x0c' :: acc) r
    | 'n' :: r => parseJsonStringBody ('\n' :: acc) r
    | 'r' :: r => parseJsonStringBody ('\r' :: acc) r
    | 't' :: r => parseJsonStringBody ('\t' :: acc) r
    | 'u' :: h1 :: h2 :: h3 :: h4 :: r =>
      if isHexDigitChar h1 && isHexDigitChar h2 && isHexDigitChar h3 && isHexDigitChar h4 then
        let code := ((hexVal h1 * 16 + hexVal h2) * 16 + hexVal h3) * 16 + hexVal h4
        parseJsonStringBody (Char.ofNat code :: acc) r
      else none
    | _ => none
  | c :: rest =>
    if c.toNat < 0x20 then none else parseJsonStringBody (c :: acc) rest

/-- Numeric value of a digit list (most significant first). -/
def digitsVal (l : List Char) : ℕ :=
  l.foldl (fun acc c => acc * 10 + (c.toNat - '0'.toNat)) 0

/-- Number scanner following the decoder's `NUMBER_RE`
`(-?(?:0|[1-9]\d*))(\.\d+)?([eE][-+]?\d+)?`: a maximal match is taken and
the remainder is left over; an integer literal without fraction/exponent
yields a Python `int`, anything else a `float`. -/
def parseJsonNumber (l : List Char) : Option (JsonValue × List Char) :=
  let (neg, l1) := match l with
    | '-' :: r => (true, r)
    | _ => (false, l)
  match l1 with
  | c :: _ =>
    if c.isDigit then
      let (intDigits, l2) :=
        if c == '0' then ([c], l1.tail)
        else (l1.takeWhile Char.isDigit, l1.dropWhile Char.isDigit)
      let (fracDigits, l3) := match l2 with
        | '.' :: r =>
          let ds := r.takeWhile Char.isDigit
          if ds.isEmpty then ([], l2) else (ds, r.dropWhile Char.isDigit)
        | _ => ([], l2)
      let (expVal, hasExp, l4) : ℤ × Bool × List Char := match l3 with
        | e :: r =>
          if e == 'e' || e == 'E' then
            let (esign, r1) : ℤ × List Char := match r with
              | '+' :: r2 => (1, r2)
              | '-' :: r2 => (-1, r2)
              | _ => (1, r)
            let ds := r1.takeWhile Char.isDigit
            if ds.isEmpty then (0, false, l3)
            else (esign * (digitsVal ds : ℤ), true, r1.dropWhile Char.isDigit)
          else (0, false, l3)
        | _ => (0, false, l3)
      let sign : ℤ := if neg then -1 else 1
      if fracDigits.isEmpty && !hasExp then
        some (.int (sign * (digitsVal intDigits : ℤ)), l2)
      else
        let mantissa : ℚ := (sign : ℚ) *
          ((digitsVal (intDigits ++ fracDigits) : ℚ) / (10 : ℚ) ^ fracDigits.length)
        some (.float (mantissa * (10 : ℚ) ^ expVal), l4)
    else none
  | [] => none

mutual

/-- Value scanner (`scan_once`), fuelled to make the recursion obviously
terminating; one unit of fuel is spent per nested value, so any fuel
at least the input length suffices. -/
def parseJsonValue : ℕ → List Char → Option (JsonValue × List Char)
  | 0, _ => none
  | fuel + 1, l =>
    match l with
    | 'n' :: 'u' :: 'l' :: 'l' :: r => some (.null, r)
    | 't' :: 'r' :: 'u' :: 'e' :: r => some (.bool true, r)
    | 'f' :: 'a' :: 'l' :: 's' :: 'e' :: r => some (.bool false, r)
    | '"' :: r => (parseJsonStringBody [] r).map (fun p => (.str p.1, p.2))
    | '[' :: r =>
      let r1 := r.dropWhile isJsonWs
      match r1 with
      | ']' :: r2 => some (.arr [], r2)
      | _ => (parseJsonArrayItems fuel r1).map (fun p => (.arr p.1, p.2))
    | '{' :: r =>
      let r1 := r.dropWhile isJsonWs
      match r1 with
      | '}' :: r2 => some (.obj [], r2)
      | _ => (parseJsonObjectItems fuel [] r1).map (fun p => (.obj p.1, p.2))
    | _ => parseJsonNumber l

/-- One-or-more comma-separated array elements followed by `]`. -/
def parseJsonArrayItems : ℕ → List Char → Option (List JsonValue × List Char)
  | 0, _ => none
  | fuel + 1, l =>
    match parseJsonValue fuel l with
    | none => none
    | some (v, rest) =>
      match rest.dropWhile isJsonWs with
      | ']' :: r2 => some ([v], r2)
      | ',' :: r2 =>
        match parseJsonArrayItems fuel (r2.dropWhile isJsonWs) with
        | none => none
        | some (vs, r3) => some (v :: vs, r3)
      | _ => none

/-- One-or-more `"key": value` object members followed by `}`; members are
folded into the accumulator with dict semantics. -/
def parseJsonObjectItems : ℕ → List (String × JsonValue) → List Char →
    Option (List (String × JsonValue) × List Char)
  | 0, _, _ => none
  | fuel + 1, acc, l =>
    match l with
    | '"' :: r =>
      match parseJsonStringBody [] r with
      | none => none
      | some (key, r1) =>
        match r1.dropWhile isJsonWs with
        | ':' :: r2 =>
          match parseJsonValue fuel (r2.dropWhile isJsonWs) with
          | none => none
          | some (v, r3) =>
            let acc1 := dictInsert acc key v
            match r3.dropWhile isJsonWs with
            | '}' :: r4 => some (acc1, r4)
            | ',' :: r4 => parseJsonObjectItems fuel acc1 (r4.dropWhile isJsonWs)
            | _ => none
        | _ => none
    | _ => none

end

/-- `json.JSONDecoder.raw_decode(s)` at index 0: scan one value starting at
the first character (no leading-whitespace skip) and return it with the
unconsumed remainder; a failed scan (`none`) models the raised
`JSONDecodeError`. -/
def rawDecode (l : List Char) : Option (JsonValue × List Char) :=
  parseJsonValue (l.length + 1) l

/-- The two classes of `json.loads` failure `safe_json_loads` distinguishes:
a decode whose leftover text triggers "Extra data", and every other
`JSONDecodeError` (whose message never contains that phrase). -/
inductive JsonLoadsErr where
  | extraData
  | decodeError
deriving DecidableEq

/-- `str(e)` rendering used when the error text is embedded in reasoning. -/
def JsonLoadsErr.msg : JsonLoadsErr → String
  | .extraData => "Extra data"
  | .decodeError => "Expecting value"

/-- `json.loads(s)`: skip leading JSON whitespace, scan one value, then
require only whitespace to remain; otherwise "Extra data". -/
def pyJsonLoads (l : List Char) : Except JsonLoadsErr JsonValue :=
  match rawDecode (l.dropWhile isJsonWs) with
  | none => .error .decodeError
  | some (v, rest) =>
    if rest.dropWhile isJsonWs = [] then .ok v else .error .extraData

/-! ## `safe_json_loads` (`benchmark/executor.py`, lines 23-46) -/

/-- Lookahead `(?=\s*[^\}\s]|$)` of the recovery pattern, tested against the
text after a candidate closing brace: either optional whitespace followed by
a character that is neither whitespace nor a closing brace, or end of input
(`$` also matches just before a final newline). -/
def reLookaheadOk (rest : List Char) : Bool :=
  (match rest.dropWhile isReWs with
   | c :: _ => c != '}'
   | [] => false)
  || rest == [] || rest == ['\n']

/-- Lazy `.*?\}` scan of the recovery pattern starting just after a `{`:
find the shortest body (which may itself contain `}` characters after
backtracking, but never a newline, which `.` does not match) whose closing
brace satisfies the lookahead.  Returns the body and the text after the
closing brace. -/
def reMatchBody (acc : List Char) : List Char → Option (List Char × List Char)
  | [] => none
  | '}' :: after =>
    if reLookaheadOk after then some (acc.reverse, after)
    else reMatchBody ('}' :: acc) after
  | '\n' :: _ => none
  | c :: rest => reMatchBody (c :: acc) rest

/-- `re.search(r'\{.*?\}(?=\s*[^\}\s]|$)', s)`: leftmost starting brace
wins, with the shortest valid body; the returned text is `match.group()`. -/
def reSearchJsonPattern : List Char → Option (List Char)
  | [] => none
  | l :: rest =>
    match (if l == '{' then reMatchBody [] rest else none) with
    | some (body, _) => some ('{' :: body ++ ['}'])
    | none => reSearchJsonPattern rest

/-- A tool-call `arguments` payload as it arrives from the provider: either
a JSON-encoded string or an already-structured value. -/
inductive PyArg where
  | argStr (s : String)
  | argObj (v : JsonValue)

/-- `safe_json_loads`: non-string input is returned unchanged; a string is
parsed with `json.loads`; on "Extra data" the first valid JSON value is
recovered with `raw_decode`, then (if that too fails) with the regex
pattern; any remaining failure re-raises the original error. -/
def safeJsonLoads : PyArg → Except JsonLoadsErr JsonValue
  | .argObj v => .ok v
  | .argStr s =>
    match pyJsonLoads s.toList with
    | .ok v => .ok v
    | .error e =>
      match e with
      | .extraData =>
        match rawDecode s.toList with
        | some (v, _) => .ok v
        | none =>
          match reSearchJsonPattern s.toList with
          | some matched =>
            match pyJsonLoads matched with
            | .ok v => .ok v
            | .error _ => .error e
          | none => .error e
      | .decodeError => .error e

/-! ## Provider and benchmark data model
(`providers/base.py`, `benchmark/models.py`) -/

/-- `ModelResponse` from `providers/base.py`.  `usage` is the provider's
token-usage dictionary; `tool_calls` the raw tool-call requests. -/
structure ToolCallInfo where
  name : String
  arguments : PyArg
  id : Option String

/-- A normalised `ToolCall` (`providers/base.py`): `arguments` must be a
structured mapping (`Dict[str, Any]`), enforced by pydantic validation. -/
structure ToolCall where
  name : String
  arguments : List (String × JsonValue)
  call_id : Option String

structure ModelResponse where
  content : String
  usage : Option (List (String × ℤ))
  model : String
  provider : String
  tool_calls : List ToolCallInfo
  error : Option String

/-- `TestCase` (`scenarios/models.py`): the fields the executor and judge
context read. -/
structure TestCase where
  id : String
  scenario_type : String
  user_query : String
  expected_behavior : String
  difficulty : ℤ
  category : Option String

/-- `BenchmarkStatus` lifecycle enum. -/
inductive BenchmarkStatus where
  | pending
  | running
  | completed
  | failed
  | cancelled
deriving DecidableEq

/-- `TestResult` (`benchmark/models.py`): the record of one
(model, test case) execution.  `tool_results` entries are raw payloads
(`{products: ...}` successes or `{error: ...}` records). -/
structure TestResult where
  test_case_id : String
  model_id : String
  scenario_type : String
  user_query : String
  model_response : ModelResponse
  tool_calls_made : List ToolCall
  tool_results : List JsonValue
  execution_time_ms : ℚ
  timestamp : String
  error : Option String

/-- The `{"error": str(e)}` payload appended when a tool call fails. -/
def errorPayload (msg : String) : JsonValue :=
  .obj [("error", .str msg)]

/-- `ModelBenchmarkResults` (`benchmark/models.py`). -/
structure ModelBenchmarkResults where
  model_id : String
  model_name : String
  provider : String
  test_results : List TestResult
  status : BenchmarkStatus
  total_duration_ms : Option ℚ

/-- `BenchmarkConfig` (`benchmark/models.py`), defaults included. -/
structure BenchmarkConfig where
  concurrent_models : ℕ := 3
  timeout_per_test : ℤ := 60
  retry_failed_tests : Bool := true
  max_retries : ℤ := 2
  save_intermediate_results : Bool := true
  include_tool_execution : Bool := true

/-! ## LLM judge (`evaluation/judge.py`)

`_create_evaluation_prompt` is pure string formatting over a validated
`TestResult` and cannot fail; its output text does not influence any claim,
so only the response-processing side of the judge is modelled. -/

/-- `EvaluationResult` (`evaluation/models.py`). -/
structure EvaluationResult where
  test_case_id : String
  model_id : String
  scenario_type : String
  user_query : String
  model_response : String
  expected_behavior : String
  scores : List CriteriaScore
  overall_score : ℚ
  tool_calls_made : List ToolCall
  tool_results : List JsonValue
  judge_model : String
  evaluation_timestamp : String
  additional_notes : Option String

/-- The judge-context dictionary built by `evaluate_benchmark_run`; only
`expected_behavior` is read by the response-processing path, via
`.get("expected_behavior", "")`. -/
structure TestCaseContext where
  expected_behavior : Option String

/-- `ctx.get("expected_behavior", "")`. -/
def TestCaseContext.expectedBehaviorOrEmpty (ctx : TestCaseContext) : String :=
  ctx.expected_behavior.getD ""

/-- `str.find(c)`: index of the first occurrence, `-1` if absent. -/
def pyFind (l : List Char) (c : Char) : ℤ :=
  match l.findIdx? (· == c) with
  | some i => (i : ℤ)
  | none => -1

/-- `str.rfind(c)`: index of the last occurrence, `-1` if absent. -/
def pyRfind (l : List Char) (c : Char) : ℤ :=
  match l.reverse.findIdx? (· == c) with
  | some i => (l.length : ℤ) - 1 - (i : ℤ)
  | none => -1

/-- Lines 227-230 of `judge.py`: drop a leading "```json" marker and a
trailing "```" marker when present. -/
def stripCodeFence (l : List Char) : List Char :=
  let l1 := if l.take 7 == "```json".toList then l.drop 7 else l
  if decide (3 ≤ l1.length) && l1.drop (l1.length - 3) == "```".toList then
    l1.take (l1.length - 3)
  else l1

/-- Lines 232-239 of `judge.py`: cut text before the first brace
(`json_start > 0`) and after the last brace
(`json_end > 0 and json_end < len - 1`). -/
def sliceJsonBraces (l : List Char) : List Char :=
  let json_start := pyFind l '{'
  let l1 := if json_start > 0 then l.drop json_start.toNat else l
  let json_end := pyRfind l1 '}'
  if json_end > 0 && json_end < (l1.length : ℤ) - 1 then
    l1.take (json_end.toNat + 1)
  else l1

/-- Lines 225-241 of `judge.py`: the full text-repair pipeline applied to
the judge response before `json.loads`. -/
def extractJsonText (l : List Char) : List Char :=
  pyStrip (sliceJsonBraces (stripCodeFence (pyStrip l)))

/-- Exceptions arising inside the criteria loop.  `KeyError` and
`ValueError` (which includes pydantic validation errors) are caught by the
inner `except (KeyError, ValueError)` handler; `TypeError` is not. -/
inductive PyErr where
  | keyError (k : String)
  | valueError (m : String)
  | typeError (m : String)
deriving DecidableEq

/-- Whether the inner `except (KeyError, ValueError)` handler catches it. -/
def PyErr.isCaught : PyErr → Bool
  | .keyError _ => true
  | .valueError _ => true
  | .typeError _ => false

/-- `str(e)` rendering. -/
def PyErr.msg : PyErr → String
  | .keyError k => "'" ++ k ++ "'"
  | .valueError m => m
  | .typeError m => m

/-- The literal `score_mapping` dict of line 254, read with
`.get(score_value, ScoreLevel.SATISFACTORY)`. -/
def scoreMapping (n : ℤ) : ScoreLevel :=
  if n = 5 then .excellent
  else if n = 4 then .good
  else if n = 3 then .satisfactory
  else if n = 2 then .poor
  else if n = 1 then .very_poor
  else .satisfactory

/-- Lines 252-257: `isinstance(score_value, int)` routes Python ints (and
bools, which are ints) through `score_mapping`; everything else goes
through `ScoreLevel(score_value)`, which raises `ValueError` for anything
but a valid level string. -/
def coerceScoreLevel : JsonValue → Except PyErr ScoreLevel
  | .int n => .ok (scoreMapping n)
  | .bool b => .ok (scoreMapping (if b then 1 else 0))
  | .str s =>
    match ScoreLevel.ofValue s with
    | some level => .ok level
    | none => .error (.valueError ("'" ++ s ++ "' is not a valid ScoreLevel"))
  | .float _ => .error (.valueError "is not a valid ScoreLevel")
  | .null => .error (.valueError "is not a valid ScoreLevel")
  | .arr _ => .error (.valueError "is not a valid ScoreLevel")
  | .obj _ => .error (.valueError "is not a valid ScoreLevel")

/-- The body of the inner `try` for one criteria entry (lines 250-265),
after the criterion name has already been resolved: subscript `"score"`,
coerce the level, subscript `"reasoning"`, build the `CriteriaScore`.
Subscripting a non-dict raises `TypeError`; a non-string reasoning fails
pydantic validation (a `ValueError`). -/
def parseOneCriterion (criteria : EvaluationCriteria) : JsonValue → Except PyErr CriteriaScore
  | .obj fields =>
    (match dictGet fields "score" with
     | none => .error (.keyError "score")
     | some sv =>
       match coerceScoreLevel sv with
       | .error e => .error e
       | .ok level =>
         match dictGet fields "reasoning" with
         | none => .error (.keyError "reasoning")
         | some (.str reasoning) => .ok (CriteriaScore.make criteria level reasoning)
         | some _ => .error (.valueError "reasoning is not a valid string"))
  | _ => .error (.typeError "criteria_data is not subscriptable")

/-- The criteria loop of lines 245-272.  An `additional_notes` entry is
skipped.  A criterion name that does not resolve raises `ValueError` at
line 250; the `except` handler then calls `EvaluationCriteria(criteria_name)`
again (line 269), which raises the same `ValueError` out of the loop — so
an unmappable name aborts the whole parse.  For a resolvable name, a
caught failure is recorded as a satisfactory fallback entry with a
"Failed to parse score" note; an uncaught failure aborts the parse. -/
def parseCriteriaEntries : List (String × JsonValue) → Except PyErr (List CriteriaScore)
  | [] => .ok []
  | (name, data) :: rest =>
    if name == "additional_notes" then parseCriteriaEntries rest
    else
      match EvaluationCriteria.ofValue name with
      | none => .error (.valueError ("'" ++ name ++ "' is not a valid EvaluationCriteria"))
      | some criteria =>
        match parseOneCriterion criteria data with
        | .ok cs =>
          (parseCriteriaEntries rest).map (fun tl => cs :: tl)
        | .error e =>
          if e.isCaught then
            (parseCriteriaEntries rest).map (fun tl =>
              CriteriaScore.make criteria .satisfactory
                ("Failed to parse score: " ++ e.msg) :: tl)
          else .error e

/-- Everything inside the outer `try` of `_parse_evaluation_response` up to
the scores list and notes: text repair, `json.loads`, `.items()` iteration
(an `AttributeError` for a non-dict), the criteria loop, and validation of
`additional_notes` (an `Optional[str]` field).  An `.error` is the
exception reaching the outer handler, rendered as `str(e)`. -/
def parseAttempt (response_content : String) :
    Except String (List CriteriaScore × Option String) :=
  match pyJsonLoads (extractJsonText response_content.toList) with
  | .error e => .error e.msg
  | .ok v =>
    match v with
    | .obj fields =>
      match parseCriteriaEntries fields with
      | .error e => .error e.msg
      | .ok scores =>
        match dictGet fields "additional_notes" with
        | none => .ok (scores, none)
        | some (.str s) => .ok (scores, some s)
        | some .null => .ok (scores, none)
        | some _ => .error "additional_notes is not a valid string"
    | _ => .error "object has no attribute 'items'"

/-- `LLMJudge._create_fallback_evaluation` (lines 309-337). -/
def createFallbackEvaluation (config : EvaluationConfig) (test_result : TestResult)
    (ctx : TestCaseContext) (now : String) (error_msg : String) : EvaluationResult :=
  { test_case_id := test_result.test_case_id
    model_id := test_result.model_id
    scenario_type := test_result.scenario_type
    user_query := test_result.user_query
    model_response := test_result.model_response.content
    expected_behavior := ctx.expectedBehaviorOrEmpty
    scores := EvaluationCriteria.all.map (fun criteria =>
      CriteriaScore.make criteria .satisfactory ("Evaluation failed: " ++ error_msg))
    overall_score := 3
    tool_calls_made := test_result.tool_calls_made
    tool_results := test_result.tool_results
    judge_model := config.judge_model
    evaluation_timestamp := now
    additional_notes := some ("Fallback evaluation due to error: " ++ error_msg) }

/-- `LLMJudge._parse_evaluation_response` (lines 218-295): a successful
parse yields the evaluation with the weighted overall score; any exception
inside it falls back with a "Parse error" reasoning. -/
def parseEvaluationResponse (config : EvaluationConfig) (response_content : String)
    (test_result : TestResult) (ctx : TestCaseContext) (now : String) : EvaluationResult :=
  match parseAttempt response_content with
  | .ok (scores, notes) =>
    { test_case_id := test_result.test_case_id
      model_id := test_result.model_id
      scenario_type := test_result.scenario_type
      user_query := test_result.user_query
      model_response := test_result.model_response.content
      expected_behavior := ctx.expectedBehaviorOrEmpty
      scores := scores
      overall_score := calculateWeightedScore config scores
      tool_calls_made := test_result.tool_calls_made
      tool_results := test_result.tool_results
      judge_model := config.judge_model
      evaluation_timestamp := now
      additional_notes := notes }
  | .error e =>
    createFallbackEvaluation config test_result ctx now ("Parse error: " ++ e)

/-- Outcome of `await asyncio.wait_for(judge_provider.generate_response(...))`:
the content of a response, or the raised exception (timeout, transport
error, ...) rendered as `str(e)`. -/
inductive JudgeCallOutcome where
  | success (content : String)
  | thrown (errMsg : String)

/-- `LLMJudge.evaluate_test_result` (lines 35-60): a total function — the
outer `except Exception` converts every raised exception into the fallback
evaluation, so the call never raises to its caller. -/
def evaluateTestResult (config : EvaluationConfig) (test_result : TestResult)
    (ctx : TestCaseContext) (now : String) : JudgeCallOutcome → EvaluationResult
  | .success content => parseEvaluationResponse config content test_result ctx now
  | .thrown errMsg => createFallbackEvaluation config test_result ctx now errMsg

/-! ## Benchmark executor (`benchmark/executor.py`) -/

/-- Outcome of one `await asyncio.wait_for(provider.generate_response(...))`:
a response, the timeout expiring, or any other raised exception rendered
as `str(e)`. -/
inductive GenOutcome where
  | success (response : ModelResponse)
  | timeout
  | raised (msg : String)

/-- Oracle for the externally-visible effects of one iteration of the
tool-call loop: the awaited `execute_tool_call` result (or its raised
exception) and the follow-up `generate_response` call. -/
structure ToolStepOracle where
  execResult : Except String JsonValue
  finalGen : GenOutcome

/-- `d.get(k, 0)` on a usage dictionary. -/
def intDictGet (d : List (String × ℤ)) (k : String) : ℤ :=
  ((d.find? (fun p => p.1 == k)).map (·.2)).getD 0

/-- `d[k] = v` on a usage dictionary. -/
def intDictSet (d : List (String × ℤ)) (k : String) (v : ℤ) : List (String × ℤ) :=
  if d.any (fun p => p.1 == k) then
    d.map (fun p => if p.1 == k then (k, v) else p)
  else d ++ [(k, v)]

/-- Python truthiness of an optional dict (`if response.usage:`): an absent
or empty dict is falsy. -/
def usageTruthy : Option (List (String × ℤ)) → Bool
  | some (_ :: _) => true
  | _ => false

/-- Lines 299-304: merge the follow-up call's token usage into the running
response. -/
def mergeUsage (respUsage finalUsage : Option (List (String × ℤ))) :
    Option (List (String × ℤ)) :=
  if usageTruthy finalUsage then
    let fu := finalUsage.getD []
    if usageTruthy respUsage then
      let ru := respUsage.getD []
      some (intDictSet ru "total_tokens"
        (intDictGet ru "total_tokens" + intDictGet fu "total_tokens"))
    else finalUsage
  else respUsage

/-- Lines 257-269: normalise one raw tool call into a `ToolCall`.  The
`"function"`-wrapped and flat shapes extract the same fields, so the model
keeps the extracted fields.  Parsing a string argument goes through
`safe_json_loads`; pydantic then requires the arguments to be a mapping.
An `.error` is the exception caught by `except Exception as tool_error`. -/
def normalizeToolCall (info : ToolCallInfo) : Except String ToolCall :=
  match safeJsonLoads info.arguments with
  | .error e => .error e.msg
  | .ok (.obj fields) => .ok ⟨info.name, fields, info.id⟩
  | .ok _ => .error "validation error for ToolCall arguments"

/-- Mutable state of the tool-call loop: the user-facing content, the
running usage, the executed calls and the raw tool results. -/
structure ToolLoopState where
  content : String
  usage : Option (List (String × ℤ))
  tool_calls_made : List ToolCall
  tool_results : List JsonValue

/-- One iteration of the tool-call loop (lines 255-308).  Any exception —
argument parsing, tool execution, or the follow-up generation (including
its timeout) — is caught and appended to `tool_results` as an
`{"error": str(e)}` payload, after whatever appends already happened.
`str()` of a bare `TimeoutError` is the empty string. -/
def runToolStep (st : ToolLoopState) (info : ToolCallInfo) (oracle : ToolStepOracle) :
    ToolLoopState :=
  match normalizeToolCall info with
  | .error msg => { st with tool_results := st.tool_results ++ [errorPayload msg] }
  | .ok tool_call =>
    match oracle.execResult with
    | .error msg => { st with tool_results := st.tool_results ++ [errorPayload msg] }
    | .ok tool_result =>
      let st1 := { st with
        tool_calls_made := st.tool_calls_made ++ [tool_call]
        tool_results := st.tool_results ++ [tool_result] }
      match oracle.finalGen with
      | .success final_response =>
        { st1 with
          content := final_response.content
          usage := mergeUsage st1.usage final_response.usage }
      | .timeout =>
        { st1 with tool_results := st1.tool_results ++ [errorPayload ""] }
      | .raised msg =>
        { st1 with tool_results := st1.tool_results ++ [errorPayload msg] }

/-- The tool-call loop, iterating the response's raw tool calls in order,
with the `i`-th iteration's awaited effects supplied by `step i`. -/
def runToolLoop (step : ℕ → ToolStepOracle) : ℕ → List ToolCallInfo → ToolLoopState →
    ToolLoopState
  | _, [], st => st
  | i, info :: rest, st => runToolLoop step (i + 1) rest (runToolStep st info (step i))

/-- Oracle for one whole `_run_single_test` call. -/
structure SingleTestEnv where
  firstGen : GenOutcome
  toolStep : ℕ → ToolStepOracle
  elapsed_ms : ℚ
  now : String

/-- `BenchmarkExecutor._run_single_test` (lines 234-363): a total function.
On success the returned response carries the (possibly tool-updated)
content and usage; on the first call's timeout the result is the synthetic
timeout record (lines 324-342); on any other exception the error record
(lines 344-363).  `elapsed_ms` is the wall-clock
`(time.time() - start_time) * 1000` at the return point. -/
def runSingleTest (config : BenchmarkConfig) (test_case : TestCase) (model_id : String)
    (model_name provider_name : String) (env : SingleTestEnv) : TestResult :=
  match env.firstGen with
  | .success response =>
    let st0 : ToolLoopState :=
      { content := response.content
        usage := response.usage
        tool_calls_made := []
        tool_results := [] }
    let st :=
      if !response.tool_calls.isEmpty && config.include_tool_execution then
        runToolLoop env.toolStep 0 response.tool_calls st0
      else st0
    { test_case_id := test_case.id
      model_id := model_id
      scenario_type := test_case.scenario_type
      user_query := test_case.user_query
      model_response := { response with content := st.content, usage := st.usage }
      tool_calls_made := st.tool_calls_made
      tool_results := st.tool_results
      execution_time_ms := env.elapsed_ms
      timestamp := env.now
      error := none }
  | .timeout =>
    { test_case_id := test_case.id
      model_id := model_id
      scenario_type := test_case.scenario_type
      user_query := test_case.user_query
      model_response :=
        { content := ""
          usage := none
          model := model_name
          provider := provider_name
          tool_calls := []
          error := some "Timeout" }
      tool_calls_made := []
      tool_results := []
      execution_time_ms := env.elapsed_ms
      timestamp := env.now
      error := some "Test timed out" }
  | .raised msg =>
    { test_case_id := test_case.id
      model_id := model_id
      scenario_type := test_case.scenario_type
      user_query := test_case.user_query
      model_response :=
        { content := ""
          usage := none
          model := model_name
          provider := provider_name
          tool_calls := []
          error := some msg }
      tool_calls_made := []
      tool_results := []
      execution_time_ms := env.elapsed_ms
      timestamp := env.now
      error := some msg }

/-- Ambient data of one `_run_model_benchmark` worker: whether the provider
and model-configuration lookups succeed (lines 155-161), and the names
used for synthetic responses. -/
structure ModelWorkerEnv where
  providerOk : Bool
  model_name : String
  provider_name : String

/-- One test's slot in the worker loop: the test case, the oracle for its
`_run_single_test` call, and whether the injected progress callback raises
after the result has been appended.  The rate limiter (pure clock
arithmetic and `asyncio.sleep`) cannot raise and has no observable effect
on the results. -/
structure WorkerTestSlot where
  test_case : TestCase
  env : SingleTestEnv
  callbackRaises : Bool

/-- The per-test loop of `_run_model_benchmark` (lines 170-193): each slot
appends its `TestResult`; a callback exception afterwards is caught by the
per-test handler and appended as an exception object (`Sum.inr`), which
the collection loop at lines 195-199 later discards. -/
def workerLoop (config : BenchmarkConfig) (model_id : String) (env : ModelWorkerEnv) :
    List WorkerTestSlot → List (TestResult ⊕ String)
  | [] => []
  | slot :: rest =>
    Sum.inl (runSingleTest config slot.test_case model_id env.model_name
        env.provider_name slot.env) ::
      ((if slot.callbackRaises then [Sum.inr "progress callback raised"] else []) ++
        workerLoop config model_id env rest)

/-- Lines 195-199: keep the `TestResult`s, drop (and log) the exceptions. -/
def collectTestResults (l : List (TestResult ⊕ String)) : List TestResult :=
  l.filterMap (fun x => match x with
    | .inl r => some r
    | .inr _ => none)

/-- `BenchmarkExecutor._run_model_benchmark` (lines 140-221), from the
worker's own point of view after semaphore admission: a failed provider or
configuration lookup raises, marking the model `failed` with no results;
otherwise every test case is attempted, the surviving `TestResult`s are
collected, and the model completes. -/
def runModelBenchmark (config : BenchmarkConfig) (model_id : String)
    (env : ModelWorkerEnv) (slots : List WorkerTestSlot)
    (duration_ms : ℚ) : ModelBenchmarkResults :=
  if env.providerOk then
    { model_id := model_id
      model_name := env.model_name
      provider := env.provider_name
      test_results := collectTestResults (workerLoop config model_id env slots)
      status := .completed
      total_duration_ms := some duration_ms }
  else
    { model_id := model_id
      model_name := env.model_name
      provider := env.provider_name
      test_results := []
      status := .failed
      total_duration_ms := none }

/-! ## Multi-judge consensus (`evaluation/multi_judge.py`) -/

/-- The `score_level_map` of line 147: inverse of `SCORE_VALUES`; absent
keys model the `KeyError` a lookup outside 1-5 would raise. -/
def scoreLevelMap (v : ℤ) : Option ScoreLevel :=
  if v = 5 then some .excellent
  else if v = 4 then some .good
  else if v = 3 then some .satisfactory
  else if v = 2 then some .poor
  else if v = 1 then some .very_poor
  else none

/-- Python's `round` on the exact value: round half to even.  The means
rounded here are ratios of small integers; whenever such a ratio is
exactly a half-integer it is exactly representable as a double, so the
float computation agrees with the exact one. -/
def pyRound (q : ℚ) : ℤ :=
  let f := ⌊q⌋
  let r := q - (f : ℚ)
  if r < 1 / 2 then f
  else if 1 / 2 < r then f + 1
  else if Even f then f else f + 1

/-- Python's `repr` of a list of ints, as interpolated into the consensus
reasoning string. -/
def pyIntListRepr (vals : List ℤ) : String :=
  "[" ++ String.intercalate ", " (vals.map toString) ++ "]"

/-- The inner `for score in evaluation.scores: ... break` of lines 137-141:
the first score carrying the wanted criterion. -/
def firstScoreFor (ev : EvaluationResult) (criteria : EvaluationCriteria) :
    Option CriteriaScore :=
  ev.scores.find? (fun s => decide (s.criteria = criteria))

/-- Lines 133-141: the `(score_value, "judge: reasoning")` pairs collected
for one criterion across the judges that scored it. -/
def gatherCriterion (judge_evaluations : List (String × EvaluationResult))
    (criteria : EvaluationCriteria) : List (ℤ × String) :=
  judge_evaluations.filterMap (fun je =>
    (firstScoreFor je.2 criteria).map (fun s =>
      (s.score_value, je.1 ++ ": " ++ s.reasoning)))

/-- Lines 143-156 for one criterion: skip criteria nobody scored; otherwise
round the mean, clamp to 1-5, map back to a level and combine the
reasonings.  `none` models the (unreachable after clamping) `KeyError`. -/
def consensusScoreFor (judge_evaluations : List (String × EvaluationResult))
    (criteria : EvaluationCriteria) : Option (Option CriteriaScore) :=
  match gatherCriterion judge_evaluations criteria with
  | [] => some none
  | gathered =>
    let criteria_scores : List ℤ := gathered.map (·.1)
    let consensus_rounded := pyRound
      ((criteria_scores.map (fun v : ℤ => (v : ℚ))).sum / (criteria_scores.length : ℚ))
    let consensus_score_value := max 1 (min 5 consensus_rounded)
    match scoreLevelMap consensus_score_value with
    | none => none
    | some level =>
      let combined_reasoning :=
        "Consensus from " ++ toString criteria_scores.length ++ " judges (scores: " ++
          pyIntListRepr criteria_scores ++ "). " ++
          String.intercalate "; " (gathered.map (·.2))
      some (some (CriteriaScore.make criteria level combined_reasoning))

/-- The `for criteria in EvaluationCriteria:` loop of lines 132-156. -/
def consensusScoresLoop (judge_evaluations : List (String × EvaluationResult)) :
    List EvaluationCriteria → Option (List CriteriaScore)
  | [] => some []
  | criteria :: rest =>
    match consensusScoreFor judge_evaluations criteria with
    | none => none
    | some none => consensusScoresLoop judge_evaluations rest
    | some (some cs) =>
      (consensusScoresLoop judge_evaluations rest).map (fun tl => cs :: tl)

/-- `MultiJudgeEvaluation._create_consensus_for_test` (lines 121-182);
`none` models a raised exception (empty input, or the unreachable
`KeyError`).  The judge dictionary iterates in insertion order, modelled
as a list of `(judge_model, evaluation)` pairs. -/
def createConsensusForTest (judge_evaluations : List (String × EvaluationResult))
    (now : String) : Option EvaluationResult :=
  match judge_evaluations with
  | [] => none
  | first :: _ =>
    let first_eval := first.2
    match consensusScoresLoop judge_evaluations EvaluationCriteria.all with
    | none => none
    | some consensus_scores =>
      let overall_scores := judge_evaluations.map (fun je => je.2.overall_score)
      let consensus_overall := overall_scores.sum / (overall_scores.length : ℚ)
      let notes := judge_evaluations.filterMap (fun je =>
        je.2.additional_notes.map (fun n => je.1 ++ ": " ++ n))
      some
        { test_case_id := first_eval.test_case_id
          model_id := first_eval.model_id
          scenario_type := first_eval.scenario_type
          user_query := first_eval.user_query
          model_response := first_eval.model_response
          expected_behavior := first_eval.expected_behavior
          scores := consensus_scores
          overall_score := consensus_overall
          tool_calls_made := first_eval.tool_calls_made
          tool_results := first_eval.tool_results
          judge_model := "consensus_of_" ++ toString judge_evaluations.length ++ "_judges"
          evaluation_timestamp := now
          additional_notes :=
            if notes.isEmpty then none else some (String.intercalate "; " notes) }

/-! ## Semaphore admission control (`run_benchmark`, lines 107-116, and
`_run_model_benchmark`, line 147)

`run_benchmark` creates `asyncio.Semaphore(config.concurrent_models)` and
one task per model; each worker's body runs under `async with semaphore`.
The admission behaviour is modelled as a transition system: a worker is
`waiting` until it acquires the semaphore, `running` while it holds it
(its model's tests execute), and `finished` once the `async with` block
exits and releases it. -/

inductive WorkerPhase where
  | waiting
  | running
  | finished
deriving DecidableEq

/-- Scheduler state: free semaphore slots plus each worker's phase. -/
structure ExecSchedState where
  avail : ℕ
  workers : List WorkerPhase

/-- Initial state: a fresh semaphore of size `concurrent_models`, every
model worker created and waiting for admission. -/
def initSchedState (config : BenchmarkConfig) (numModels : ℕ) : ExecSchedState :=
  ⟨config.concurrent_models, List.replicate numModels .waiting⟩

/-- Event-loop transitions: a waiting worker may enter its `async with`
block only when a semaphore slot is free; a running worker eventually
finishes and releases its slot. -/
inductive SchedStep : ExecSchedState → ExecSchedState → Prop where
  | acquire (s : ExecSchedState) (i : ℕ) (h : s.workers.get? i = some .waiting)
      (ha : 0 < s.avail) :
      SchedStep s ⟨s.avail - 1, s.workers.set i .running⟩
  | release (s : ExecSchedState) (i : ℕ) (h : s.workers.get? i = some .running) :
      SchedStep s ⟨s.avail + 1, s.workers.set i .finished⟩

/-- States reachable during one `run_benchmark` execution. -/
inductive SchedReachable (config : BenchmarkConfig) (numModels : ℕ) :
    ExecSchedState → Prop where
  | init : SchedReachable config numModels (initSchedState config numModels)
  | step {s t : ExecSchedState} : SchedReachable config numModels s → SchedStep s t →
      SchedReachable config numModels t

/-- Number of model workers currently executing their tests. -/
def runningCount (s : ExecSchedState) : ℕ :=
  s.workers.countP (fun p => p == .running)

/-- `MultiJudgeEvaluation._create_fallback_evaluation` (lines 184-213):
the all-criteria fallback used when one judge of a panel fails. -/
def createMultiJudgeFallback (test_result : TestResult) (ctx : TestCaseContext)
    (judge_model : String) (now : String) (error_msg : String) : EvaluationResult :=
  { test_case_id := test_result.test_case_id
    model_id := test_result.model_id
    scenario_type := test_result.scenario_type
    user_query := test_result.user_query
    model_response := test_result.model_response.content
    expected_behavior := ctx.expectedBehaviorOrEmpty
    scores := EvaluationCriteria.all.map (fun criteria =>
      CriteriaScore.make criteria .satisfactory
        ("Judge " ++ judge_model ++ " failed: " ++ error_msg))
    overall_score := 3
    tool_calls_made := test_result.tool_calls_made
    tool_results := test_result.tool_results
    judge_model := judge_model
    evaluation_timestamp := now
    additional_notes := some ("Fallback evaluation due to judge failure: " ++ error_msg) }

/-! ## Spec-side descriptions used by refinement statements -/

/-- Spec wording: "if non-JSON text precedes the first `{`, discard it". -/
def dropBeforeFirstBrace (l : List Char) : List Char :=
  if '{' ∈ l then l.dropWhile (fun c => c != '{') else l

/-- Spec wording: "if text follows the last `}`, discard it". -/
def dropAfterLastBrace (l : List Char) : List Char :=
  if '}' ∈ l then (l.reverse.dropWhile (fun c => c != '}')).reverse else l

/-- The spec's description of the brace-slicing step. -/
def specSliceJson (l : List Char) : List Char :=
  dropAfterLastBrace (dropBeforeFirstBrace l)

/-! ## Concrete fixtures used by witnesses and counterexamples -/

def sampleResponse : ModelResponse :=
  { content := "Mamy laptopy Lenovo.", usage := none, model := "m", provider := "p",
    tool_calls := [], error := none }

def sampleTestResult : TestResult :=
  { test_case_id := "tc-1", model_id := "model-a", scenario_type := "correct",
    user_query := "Jakie laptopy?", model_response := sampleResponse,
    tool_calls_made := [], tool_results := [], execution_time_ms := 100,
    timestamp := "t0", error := none }

def sampleCtx : TestCaseContext := ⟨some "lists the matching laptops"⟩

def sampleTestCase : TestCase :=
  { id := "tc-1", scenario_type := "correct", user_query := "Jakie laptopy?",
    expected_behavior := "lists the matching laptops", difficulty := 1, category := none }

def sampleTestCase2 : TestCase :=
  { id := "tc-2", scenario_type := "incorrect", user_query := "Czy macie jachty?",
    expected_behavior := "explains the shop does not carry this", difficulty := 2,
    category := none }

/-- A tool-step oracle for tests that make no tool calls. -/
def noToolStep : ℕ → ToolStepOracle :=
  fun _ => { execResult := .error "unused", finalGen := .timeout }

/-- The judge-score example of the spec's weighted-average property. -/
def c4ExampleScores : List CriteriaScore :=
  [CriteriaScore.make .task_performance .excellent "a",
   CriteriaScore.make .response_quality .satisfactory "b",
   CriteriaScore.make .language_quality .good "c",
   CriteriaScore.make .tool_usage .good "d",
   CriteriaScore.make .factual_accuracy .poor "e"]

/-- The same example with `factual_accuracy` entirely missing. -/
def c4PartialScores : List CriteriaScore :=
  [CriteriaScore.make .task_performance .excellent "a",
   CriteriaScore.make .response_quality .satisfactory "b",
   CriteriaScore.make .language_quality .good "c",
   CriteriaScore.make .tool_usage .good "d"]

/-- A judge response that is valid JSON, with one well-formed criterion and
one entry whose name does not map to the criterion set. -/
def c2FailingResponse : String :=
  "\x7b\"task_performance\": \x7b\"score\": 5, \"reasoning\": \"ok\"\x7d, \"bogus_criterion\": \x7b\"score\": 3, \"reasoning\": \"x\"\x7d\x7d"

/-- The embedded JSON object of the spec's JSON-recovery example. -/
def c5ObjectText : String :=
  "\x7b\"task_performance\":\x7b\"score\":5,\"reasoning\":\"ok\"\x7d, \"response_quality\":\x7b\"score\":3,\"reasoning\":\"ok\"\x7d, \"language_quality\":\x7b\"score\":4,\"reasoning\":\"ok\"\x7d, \"tool_usage\":\x7b\"score\":4,\"reasoning\":\"ok\"\x7d, \"factual_accuracy\":\x7b\"score\":2,\"reasoning\":\"ok\"\x7d\x7d"

/-- The spec's example response: prefix text, the object, suffix text. -/
def c5Example : String := "Sure!\n" ++ c5ObjectText ++ "\nHope that helps!"

/-- A judge response with no JSON in it at all. -/
def c1BadResponse : String := "Przepraszam, nie moge ocenic."

/-- A tool-call arguments string: a valid JSON object followed by trailing
garbage. -/
def c8TrailingArg : String := "\x7b\"query\": \"laptop\"\x7d junk after"

/-- A tool call whose arguments string defeats every recovery heuristic. -/
def c8BadInfo : ToolCallInfo :=
  ⟨"search_products", .argStr "totally not json", some "call-1"⟩

/-- A tool call with a recoverable arguments string. -/
def c8GoodInfo : ToolCallInfo :=
  ⟨"search_products", .argStr c8TrailingArg, some "call-2"⟩

/-- Two single-criterion judge verdicts over the same test, used to
exercise the consensus path. -/
def w9eval1 : EvaluationResult :=
  { test_case_id := "tc-1", model_id := "model-a", scenario_type := "correct",
    user_query := "Jakie laptopy?", model_response := "Mamy laptopy Lenovo.",
    expected_behavior := "lists the matching laptops",
    scores := [CriteriaScore.make .task_performance .excellent "judged well"],
    overall_score := 4, tool_calls_made := [], tool_results := [],
    judge_model := "j1", evaluation_timestamp := "t", additional_notes := none }

def w9eval2 : EvaluationResult :=
  { w9eval1 with
    scores := [CriteriaScore.make .task_performance .poor "judged badly"]
    overall_score := 2
    judge_model := "j2" }

def w9evals : List (String × EvaluationResult) := [("j1", w9eval1), ("j2", w9eval2)]

/-- Worker environment and slots for a two-test model run: one test
succeeds, the other's generation raises; the second test's progress
callback also raises. -/
def w3env : ModelWorkerEnv := ⟨true, "Model A", "openrouter"⟩

def w3slots : List WorkerTestSlot :=
  [⟨sampleTestCase, ⟨.success sampleResponse, noToolStep, 120, "t1"⟩, false⟩,
   ⟨sampleTestCase2, ⟨.raised "connection reset", noToolStep, 80, "t2"⟩, true⟩]

/-- A single-test oracle whose first generation call times out after one
second of wall-clock time. -/
def c6Env : SingleTestEnv := ⟨.timeout, noToolStep, 1000, "t6"⟩

/-! ## Theorems -/

set_option maxRecDepth 10000

theorem weightedScore_foldl (config : EvaluationConfig) :
    ∀ (scores : List CriteriaScore) (a b : ℚ),
      scores.foldl
        (fun acc s =>
          let weight := (config.criteria_weights s.criteria).getD (2 / 10)
          (acc.1 + (s.score_value : ℚ) * weight, acc.2 + weight))
        (a, b) =
      (a + weightedScoreSum config scores, b + weightSum config scores) := by
  intro scores
  induction scores with
  | nil => intro a b; simp [weightedScoreSum, weightSum]
  | cons s tl ih =>
    intro a b
    simp only [List.foldl_cons, ih, weightedScoreSum, weightSum, List.map_cons, List.sum_cons]
    rw [Prod.mk.injEq]
    exact ⟨by ring, by ring⟩

theorem calculateWeightedScore_eq_div (config : EvaluationConfig)
    (scores : List CriteriaScore) (h : 0 < weightSum config scores) :
    calculateWeightedScore config scores =
      weightedScoreSum config scores / weightSum config scores := by
  unfold calculateWeightedScore
  rw [weightedScore_foldl]
  simp only [zero_add]
  rw [if_pos h]

/-- C4: `overall_score` is the weighted average of the per-criterion scores
actually present — sum of `score_value * weight` divided by the sum of those
same weights, so a missing criterion drops out of numerator and denominator
alike; with the default weights the spec's example scores give exactly
3.75, and the same example without `factual_accuracy` averages over the
four remaining criteria (69/17 ≈ 4.06). -/
theorem claim_C4_weighted_average :
    (∀ (config : EvaluationConfig) (scores : List CriteriaScore),
      0 < weightSum config scores →
      calculateWeightedScore config scores =
        weightedScoreSum config scores / weightSum config scores) ∧
    calculateWeightedScore EvaluationConfig.default c4ExampleScores = 15 / 4 ∧
    calculateWeightedScore EvaluationConfig.default c4PartialScores = 69 / 17 := by
  refine ⟨calculateWeightedScore_eq_div, ?_, ?_⟩
  · rw [calculateWeightedScore_eq_div]
    · simp [weightedScoreSum, weightSum, c4ExampleScores, CriteriaScore.make,
        EvaluationConfig.default, defaultCriteriaWeights, SCORE_VALUES]
      norm_num
    · simp [weightSum, c4ExampleScores, CriteriaScore.make,
        EvaluationConfig.default, defaultCriteriaWeights]
      norm_num
  · rw [calculateWeightedScore_eq_div]
    · simp [weightedScoreSum, weightSum, c4PartialScores, CriteriaScore.make,
        EvaluationConfig.default, defaultCriteriaWeights, SCORE_VALUES]
      norm_num
    · simp [weightSum, c4PartialScores, CriteriaScore.make,
        EvaluationConfig.default, defaultCriteriaWeights]
      norm_num

theorem claim_C4_weighted_average_witness :
    0 < weightSum EvaluationConfig.default c4ExampleScores ∧
    calculateWeightedScore EvaluationConfig.default c4ExampleScores =
      weightedScoreSum EvaluationConfig.default c4ExampleScores /
        weightSum EvaluationConfig.default c4ExampleScores := by
  have h : 0 < weightSum EvaluationConfig.default c4ExampleScores := by
    simp [weightSum, c4ExampleScores, CriteriaScore.make,
      EvaluationConfig.default, defaultCriteriaWeights]
    norm_num
  exact ⟨h, claim_C4_weighted_average.1 EvaluationConfig.default c4ExampleScores h⟩

theorem parseOneCriterion_ok_canonical (criteria : EvaluationCriteria) (d : JsonValue)
    (cs : CriteriaScore) (h : parseOneCriterion criteria d = .ok cs) :
    cs.score_value = SCORE_VALUES cs.score := by
  cases d with
  | obj fields =>
    simp only [parseOneCriterion] at h
    split at h
    · exact absurd h (by simp)
    · split at h
      · exact absurd h (by simp)
      · split at h
        · exact absurd h (by simp)
        · injection h with h
          subst h
          rfl
        · exact absurd h (by simp)
  | null => exact absurd h (by simp [parseOneCriterion])
  | bool b => exact absurd h (by simp [parseOneCriterion])
  | int n => exact absurd h (by simp [parseOneCriterion])
  | float q => exact absurd h (by simp [parseOneCriterion])
  | str s => exact absurd h (by simp [parseOneCriterion])
  | arr xs => exact absurd h (by simp [parseOneCriterion])

theorem parseCriteriaEntries_canonical :
    ∀ (entries : List (String × JsonValue)) (l : List CriteriaScore),
      parseCriteriaEntries entries = .ok l →
      ∀ cs ∈ l, cs.score_value = SCORE_VALUES cs.score := by
  intro entries
  induction entries with
  | nil =>
    intro l h cs hm
    simp only [parseCriteriaEntries] at h
    injection h with h
    subst h
    simp at hm
  | cons e rest ih =>
    intro l h cs hm
    simp only [parseCriteriaEntries] at h
    split at h
    · exact ih l h cs hm
    · split at h
      · exact absurd h (by simp)
      · rename_i criteria _
        split at h
        · rename_i cs0 hone
          cases hr : parseCriteriaEntries rest with
          | error e0 => rw [hr] at h; exact absurd h (by simp [Except.map])
          | ok tl =>
            rw [hr] at h
            simp only [Except.map] at h
            injection h with h
            subst h
            rcases hm with _ | hm
            · exact parseOneCriterion_ok_canonical criteria _ cs hone
            · exact ih tl hr cs (by assumption)
        · rename_i e0 hone
          split at h
          · cases hr : parseCriteriaEntries rest with
            | error e1 => rw [hr] at h; exact absurd h (by simp [Except.map])
            | ok tl =>
              rw [hr] at h
              simp only [Except.map] at h
              injection h with h
              subst h
              rcases hm with _ | hm
              · rfl
              · exact ih tl hr cs (by assumption)
          · exact absurd h (by simp)

theorem parseAttempt_ok_canonical (s : String) (scores : List CriteriaScore)
    (notes : Option String) (h : parseAttempt s = .ok (scores, notes)) :
    ∀ cs ∈ scores, cs.score_value = SCORE_VALUES cs.score := by
  unfold parseAttempt at h
  split at h
  · exact absurd h (by simp)
  · rename_i v _
    cases v with
    | obj fields =>
      simp only at h
      split at h
      · exact absurd h (by simp)
      · rename_i scs hentries
        split at h <;>
          first
          | (injection h with h
             rw [Prod.mk.injEq] at h
             exact h.1 ▸ parseCriteriaEntries_canonical fields scs hentries)
          | exact absurd h (by simp)
    | null => exact absurd h (by simp)
    | bool b => exact absurd h (by simp)
    | int n => exact absurd h (by simp)
    | float q => exact absurd h (by simp)
    | str s => exact absurd h (by simp)
    | arr xs => exact absurd h (by simp)

theorem consensusScoreFor_shape (evals : List (String × EvaluationResult))
    (criteria : EvaluationCriteria) (cs : CriteriaScore)
    (h : consensusScoreFor evals criteria = some (some cs)) :
    ∃ level reasoning, cs = CriteriaScore.make criteria level reasoning := by
  unfold consensusScoreFor at h
  split at h
  · exact absurd h (by simp)
  · dsimp only at h
    split at h
    · exact absurd h (by simp)
    · rename_i level _
      injection h with h
      injection h with h
      exact ⟨level, _, h.symm⟩

theorem consensusScoresLoop_canonical (evals : List (String × EvaluationResult)) :
    ∀ (cl : List EvaluationCriteria) (l : List CriteriaScore),
      consensusScoresLoop evals cl = some l →
      ∀ cs ∈ l, cs.score_value = SCORE_VALUES cs.score := by
  intro cl
  induction cl with
  | nil =>
    intro l h cs hm
    simp only [consensusScoresLoop] at h
    injection h with h
    subst h
    simp at hm
  | cons criteria rest ih =>
    intro l h cs hm
    simp only [consensusScoresLoop] at h
    split at h
    · exact absurd h (by simp)
    · exact ih l h cs hm
    · rename_i cs0 hfor
      cases hr : consensusScoresLoop evals rest with
      | none => rw [hr] at h; exact absurd h (by simp)
      | some tl =>
        rw [hr] at h
        simp only [Option.map] at h
        injection h with h
        subst h
        rcases hm with _ | hm
        · obtain ⟨level, reasoning, hcs⟩ := consensusScoreFor_shape evals criteria cs hfor
          rw [hcs]; rfl
        · exact ih tl hr cs (by assumption)

theorem claim_C7_score_value_canonical :
    (∀ (criteria : EvaluationCriteria) (score : ScoreLevel) (reasoning : String),
      (CriteriaScore.make criteria score reasoning).score_value =
        SCORE_VALUES (CriteriaScore.make criteria score reasoning).score) ∧
    (∀ (config : EvaluationConfig) (content : String) (tr : TestResult)
        (ctx : TestCaseContext) (now : String) (cs : CriteriaScore),
      cs ∈ (parseEvaluationResponse config content tr ctx now).scores →
      cs.score_value = SCORE_VALUES cs.score) ∧
    (∀ (config : EvaluationConfig) (tr : TestResult) (ctx : TestCaseContext)
        (now msg : String) (cs : CriteriaScore),
      cs ∈ (createFallbackEvaluation config tr ctx now msg).scores →
      cs.score_value = SCORE_VALUES cs.score) ∧
    (∀ (tr : TestResult) (ctx : TestCaseContext) (judge now msg : String)
        (cs : CriteriaScore),
      cs ∈ (createMultiJudgeFallback tr ctx judge now msg).scores →
      cs.score_value = SCORE_VALUES cs.score) ∧
    (∀ (evals : List (String × EvaluationResult)) (now : String) (c : EvaluationResult)
        (cs : CriteriaScore),
      createConsensusForTest evals now = some c → cs ∈ c.scores →
      cs.score_value = SCORE_VALUES cs.score) := by
  refine ⟨fun _ _ _ => rfl, ?_, ?_, ?_, ?_⟩
  · intro config content tr ctx now cs hm
    unfold parseEvaluationResponse at hm
    split at hm
    · rename_i scores notes hp
      exact parseAttempt_ok_canonical content scores notes hp cs hm
    · simp only [createFallbackEvaluation, List.mem_map] at hm
      obtain ⟨criteria, _, rfl⟩ := hm
      rfl
  · intro config tr ctx now msg cs hm
    simp only [createFallbackEvaluation, List.mem_map] at hm
    obtain ⟨criteria, _, rfl⟩ := hm
    rfl
  · intro tr ctx judge now msg cs hm
    simp only [createMultiJudgeFallback, List.mem_map] at hm
    obtain ⟨criteria, _, rfl⟩ := hm
    rfl
  · intro evals now c cs hc hm
    cases evals with
    | nil => simp [createConsensusForTest] at hc
    | cons first rest =>
      unfold createConsensusForTest at hc
      cases hloop : consensusScoresLoop (first :: rest) EvaluationCriteria.all with
      | none => rw [hloop] at hc; exact absurd hc (by simp)
      | some consensus_scores =>
        rw [hloop] at hc
        injection hc with hc
        subst hc
        exact consensusScoresLoop_canonical (first :: rest) EvaluationCriteria.all
          consensus_scores hloop cs hm

theorem claim_C7_score_value_canonical_witness :
    (CriteriaScore.make .task_performance .satisfactory "Evaluation failed: boom") ∈
      (createFallbackEvaluation EvaluationConfig.default sampleTestResult sampleCtx
        "t1" "boom").scores ∧
    (CriteriaScore.make .task_performance .satisfactory
        "Evaluation failed: boom").score_value =
      SCORE_VALUES (CriteriaScore.make .task_performance .satisfactory
        "Evaluation failed: boom").score := by
  have hm : (CriteriaScore.make .task_performance .satisfactory "Evaluation failed: boom") ∈
      (createFallbackEvaluation EvaluationConfig.default sampleTestResult sampleCtx
        "t1" "boom").scores := by
    simp [createFallbackEvaluation, EvaluationCriteria.all]
  exact ⟨hm, claim_C7_score_value_canonical.2.2.1 EvaluationConfig.default sampleTestResult
    sampleCtx "t1" "boom" _ hm⟩

theorem createFallbackEvaluation_shape (config : EvaluationConfig) (tr : TestResult)
    (ctx : TestCaseContext) (now msg : String) :
    (createFallbackEvaluation config tr ctx now msg).scores.map
        (fun cs => cs.criteria) = EvaluationCriteria.all ∧
    (∀ cs ∈ (createFallbackEvaluation config tr ctx now msg).scores,
      cs.score = .satisfactory ∧ cs.score_value = 3 ∧
      cs.reasoning = "Evaluation failed: " ++ msg) ∧
    (createFallbackEvaluation config tr ctx now msg).overall_score = 3 := by
  refine ⟨?_, ?_, rfl⟩
  · simp only [createFallbackEvaluation, CriteriaScore.make, List.map_map]
    have : ((fun cs => cs.criteria) ∘ fun criteria =>
        CriteriaScore.mk criteria .satisfactory ("Evaluation failed: " ++ msg)
          (SCORE_VALUES .satisfactory)) = id := rfl
    rw [this, List.map_id]
  · intro cs hm
    simp only [createFallbackEvaluation, List.mem_map] at hm
    obtain ⟨criteria, _, rfl⟩ := hm
    exact ⟨rfl, rfl, rfl⟩

/-- C1: `evaluate_test_result` is total (it never raises: in the model it
is a plain function into `EvaluationResult`), and in both total-failure
modes — the judge call throwing, or the response failing `json.loads` even
after the repair heuristics — it returns the fallback evaluation: one score
per criterion in the fixed five-criterion order, each at level
"satisfactory" with numeric value 3 and a reasoning citing the error, with
`overall_score = 3.0`. -/
theorem claim_C1_fallback_guarantee :
    (∀ (config : EvaluationConfig) (tr : TestResult) (ctx : TestCaseContext)
        (now errMsg : String),
      (evaluateTestResult config tr ctx now (.thrown errMsg)).scores.map
          (fun cs => cs.criteria) = EvaluationCriteria.all ∧
      (∀ cs ∈ (evaluateTestResult config tr ctx now (.thrown errMsg)).scores,
        cs.score = .satisfactory ∧ cs.score_value = 3 ∧
        cs.reasoning = "Evaluation failed: " ++ errMsg) ∧
      (evaluateTestResult config tr ctx now (.thrown errMsg)).overall_score = 3) ∧
    (∀ (config : EvaluationConfig) (tr : TestResult) (ctx : TestCaseContext)
        (now content : String) (e : JsonLoadsErr),
      pyJsonLoads (extractJsonText content.toList) = .error e →
      (evaluateTestResult config tr ctx now (.success content)).scores.map
          (fun cs => cs.criteria) = EvaluationCriteria.all ∧
      (∀ cs ∈ (evaluateTestResult config tr ctx now (.success content)).scores,
        cs.score = .satisfactory ∧ cs.score_value = 3 ∧
        cs.reasoning = "Evaluation failed: Parse error: " ++ e.msg) ∧
      (evaluateTestResult config tr ctx now (.success content)).overall_score = 3) := by
  constructor
  · intro config tr ctx now errMsg
    exact createFallbackEvaluation_shape config tr ctx now errMsg
  · intro config tr ctx now content e he
    have hfb : evaluateTestResult config tr ctx now (.success content) =
        createFallbackEvaluation config tr ctx now ("Parse error: " ++ e.msg) := by
      show parseEvaluationResponse config content tr ctx now = _
      unfold parseEvaluationResponse parseAttempt
      rw [he]
    rw [hfb]
    exact createFallbackEvaluation_shape config tr ctx now ("Parse error: " ++ e.msg)

theorem claim_C1_fallback_guarantee_witness :
    ((evaluateTestResult EvaluationConfig.default sampleTestResult sampleCtx "tw"
        (.thrown "boom")).overall_score = 3) ∧
    (pyJsonLoads (extractJsonText c1BadResponse.toList) = .error .decodeError) ∧
    ((evaluateTestResult EvaluationConfig.default sampleTestResult sampleCtx "tw"
        (.success c1BadResponse)).overall_score = 3) := by
  have he : pyJsonLoads (extractJsonText c1BadResponse.toList) = .error .decodeError := by
    rfl
  exact ⟨(claim_C1_fallback_guarantee.1 EvaluationConfig.default sampleTestResult
      sampleCtx "tw" "boom").2.2, he,
    (claim_C1_fallback_guarantee.2 EvaluationConfig.default sampleTestResult
      sampleCtx "tw" c1BadResponse .decodeError he).2.2⟩

/-- C6 counterexample: on a timeout the `TestResult`'s own `error` field is
"Test timed out" (line 341 of `executor.py`), not "Timeout" — "Timeout" is
stored on the embedded `ModelResponse` (line 335). -/
theorem claim_C6_timeout_error_counterexample :
    (runSingleTest {} sampleTestCase "model-a" "Model A" "openrouter" c6Env).error =
      some "Test timed out" ∧
    ¬ (runSingleTest {} sampleTestCase "model-a" "Model A" "openrouter" c6Env).error =
      some "Timeout" := by
  refine ⟨rfl, ?_⟩
  intro h
  have : some "Test timed out" = some "Timeout" := h
  simp at this

/-- C6 (amended): when the generation call for a single test times out, the
executor records a `TestResult` whose response content is empty, whose
embedded `ModelResponse.error` is "Timeout" while the `TestResult.error`
field is "Test timed out", with no tool calls made and no tool results,
and whose `execution_time_ms` is the elapsed wall-clock time up to the
timeout. -/
theorem claim_C6_timeout_result (config : BenchmarkConfig) (tc : TestCase)
    (model_id model_name provider_name : String) (toolStep : ℕ → ToolStepOracle)
    (elapsed : ℚ) (now : String) :
    (runSingleTest config tc model_id model_name provider_name
        ⟨.timeout, toolStep, elapsed, now⟩).model_response.content = "" ∧
    (runSingleTest config tc model_id model_name provider_name
        ⟨.timeout, toolStep, elapsed, now⟩).model_response.error = some "Timeout" ∧
    (runSingleTest config tc model_id model_name provider_name
        ⟨.timeout, toolStep, elapsed, now⟩).error = some "Test timed out" ∧
    (runSingleTest config tc model_id model_name provider_name
        ⟨.timeout, toolStep, elapsed, now⟩).tool_calls_made = [] ∧
    (runSingleTest config tc model_id model_name provider_name
        ⟨.timeout, toolStep, elapsed, now⟩).tool_results = [] ∧
    (runSingleTest config tc model_id model_name provider_name
        ⟨.timeout, toolStep, elapsed, now⟩).execution_time_ms = elapsed :=
  ⟨rfl, rfl, rfl, rfl, rfl, rfl⟩

/-- C2 (code bug): when the judge's JSON is valid but one criterion name
does not map to the fixed set, the `except` handler at line 269 of
`judge.py` calls `EvaluationCriteria(criteria_name)` again, which raises
the very `ValueError` it was handling; the exception escapes to the outer
handler and the *whole* evaluation is replaced by the all-criteria
fallback — the well-formed `task_performance: 5` entry of the same
response is discarded rather than kept. -/
theorem claim_C2_unmappable_name_discards_evaluation :
    parseEvaluationResponse EvaluationConfig.default c2FailingResponse sampleTestResult
      sampleCtx "t2" =
    createFallbackEvaluation EvaluationConfig.default sampleTestResult sampleCtx "t2"
      "Parse error: 'bogus_criterion' is not a valid EvaluationCriteria" ∧
    (parseEvaluationResponse EvaluationConfig.default c2FailingResponse sampleTestResult
      sampleCtx "t2").scores.map (fun cs => cs.score_value) = [3, 3, 3, 3, 3] := by
  exact ⟨rfl, rfl⟩

theorem runSingleTest_test_case_id (config : BenchmarkConfig) (tc : TestCase)
    (model_id model_name provider_name : String) (env : SingleTestEnv) :
    (runSingleTest config tc model_id model_name provider_name env).test_case_id =
      tc.id := by
  rcases env with ⟨g, ts, e, n⟩
  cases g <;> rfl

theorem collect_workerLoop (config : BenchmarkConfig) (model_id : String)
    (env : ModelWorkerEnv) :
    ∀ slots : List WorkerTestSlot,
      collectTestResults (workerLoop config model_id env slots) =
        slots.map (fun s =>
          runSingleTest config s.test_case model_id env.model_name
            env.provider_name s.env) := by
  intro slots
  induction slots with
  | nil => rfl
  | cons s rest ih =>
    cases hcb : s.callbackRaises <;>
      simp [workerLoop, collectTestResults, List.filterMap_cons, List.filterMap_append,
        hcb, ← ih]

/-- C3: whenever a model's benchmark run ends `completed`, it holds exactly
one `TestResult` per input test case, in order — each attempted test yields
exactly one result (`_run_single_test` converts generation timeouts and
exceptions into error-carrying results instead of raising), and the
per-test exception handler's appended exception objects are filtered out
without losing any result. -/
theorem claim_C3_result_completeness (config : BenchmarkConfig) (model_id : String)
    (env : ModelWorkerEnv) (slots : List WorkerTestSlot) (duration : ℚ)
    (hst : (runModelBenchmark config model_id env slots duration).status = .completed) :
    (runModelBenchmark config model_id env slots duration).test_results.length =
      slots.length ∧
    (runModelBenchmark config model_id env slots duration).test_results.map
        (fun r => r.test_case_id) =
      slots.map (fun s => s.test_case.id) := by
  by_cases hok : env.providerOk
  · simp only [runModelBenchmark, if_pos hok]
    rw [collect_workerLoop]
    refine ⟨by simp, ?_⟩
    rw [List.map_map]
    exact List.map_congr_left (fun s _ =>
      runSingleTest_test_case_id config s.test_case model_id env.model_name
        env.provider_name s.env)
  · exact absurd hst (by simp [runModelBenchmark, if_neg hok])

theorem claim_C3_result_completeness_witness :
    (runModelBenchmark {} "model-a" w3env w3slots 200).status = .completed ∧
    (runModelBenchmark {} "model-a" w3env w3slots 200).test_results.length = 2 ∧
    (runModelBenchmark {} "model-a" w3env w3slots 200).test_results.map
        (fun r => r.test_case_id) = ["tc-1", "tc-2"] := by
  have hst : (runModelBenchmark {} "model-a" w3env w3slots 200).status = .completed := rfl
  obtain ⟨hlen, hids⟩ := claim_C3_result_completeness {} "model-a" w3env w3slots 200 hst
  refine ⟨hst, ?_, ?_⟩
  · simpa [w3slots] using hlen
  · simpa [w3slots, sampleTestCase, sampleTestCase2] using hids

theorem parseJsonValue_head_not_ws (fuel : ℕ) (c : Char) (t : List Char)
    (x : JsonValue × List Char) (h : parseJsonValue fuel (c :: t) = some x) :
    isJsonWs c = false := by
  by_contra hb
  rw [Bool.not_eq_false] at hb
  have hc : ((c = ' ' ∨ c = '\t') ∨ c = '\n') ∨ c = '\r' := by
    simpa [isJsonWs] using hb
  cases fuel with
  | zero => simp [parseJsonValue] at h
  | succ fuel =>
    rcases hc with ((rfl | rfl) | rfl) | rfl
    · exact absurd h (by simp [show parseJsonValue (fuel + 1) (' ' :: t) = none from rfl])
    · exact absurd h (by simp [show parseJsonValue (fuel + 1) ('\t' :: t) = none from rfl])
    · exact absurd h (by simp [show parseJsonValue (fuel + 1) ('\n' :: t) = none from rfl])
    · exact absurd h (by simp [show parseJsonValue (fuel + 1) ('\r' :: t) = none from rfl])

theorem rawDecode_no_leading_ws (l : List Char) (x : JsonValue × List Char)
    (h : rawDecode l = some x) : l.dropWhile isJsonWs = l := by
  cases l with
  | nil => rfl
  | cons c t =>
    have hc : isJsonWs c = false :=
      parseJsonValue_head_not_ws _ c t x h
    simp [List.dropWhile_cons, hc]

/-- C8: `safe_json_loads` recovers the first valid JSON value from a string
consisting of a valid value followed by non-whitespace trailing garbage
(rather than failing), returns a non-string input unchanged, and in the
executor's tool-call loop an arguments string that defeats every recovery
heuristic produces an `{"error": ...}` payload for that call while the
loop — and hence the test — continues with the remaining calls. -/
theorem claim_C8_safe_json_loads :
    (∀ (s : String) (v : JsonValue) (rest : List Char),
      rawDecode s.toList = some (v, rest) →
      rest.dropWhile isJsonWs ≠ [] →
      safeJsonLoads (.argStr s) = .ok v) ∧
    (∀ v : JsonValue, safeJsonLoads (.argObj v) = .ok v) ∧
    (∀ (st : ToolLoopState) (info : ToolCallInfo) (oracle : ToolStepOracle)
        (e : JsonLoadsErr),
      safeJsonLoads info.arguments = .error e →
      runToolStep st info oracle =
        { st with tool_results := st.tool_results ++ [errorPayload e.msg] }) ∧
    (∀ (step : ℕ → ToolStepOracle) (i : ℕ) (st : ToolLoopState)
        (info : ToolCallInfo) (rest : List ToolCallInfo) (e : JsonLoadsErr),
      safeJsonLoads info.arguments = .error e →
      runToolLoop step i (info :: rest) st =
        runToolLoop step (i + 1) rest
          { st with tool_results := st.tool_results ++ [errorPayload e.msg] }) := by
  have hstep : ∀ (st : ToolLoopState) (info : ToolCallInfo) (oracle : ToolStepOracle)
      (e : JsonLoadsErr),
      safeJsonLoads info.arguments = .error e →
      runToolStep st info oracle =
        { st with tool_results := st.tool_results ++ [errorPayload e.msg] } := by
    intro st info oracle e he
    unfold runToolStep normalizeToolCall
    rw [he]
  refine ⟨?_, fun v => rfl, hstep, ?_⟩
  · intro s v rest h hne
    have hl : s.toList.dropWhile isJsonWs = s.toList := rawDecode_no_leading_ws _ _ h
    have hloads : pyJsonLoads s.toList = .error .extraData := by
      unfold pyJsonLoads
      rw [hl, h]
      show (if List.dropWhile isJsonWs rest = [] then Except.ok v
        else Except.error JsonLoadsErr.extraData) = Except.error JsonLoadsErr.extraData
      exact if_neg hne
    show (match pyJsonLoads s.toList with
      | .ok v => Except.ok v
      | .error e =>
        match e with
        | .extraData =>
          match rawDecode s.toList with
          | some (v, _) => Except.ok v
          | none =>
            match reSearchJsonPattern s.toList with
            | some matched =>
              match pyJsonLoads matched with
              | .ok v => Except.ok v
              | .error _ => Except.error e
            | none => Except.error e
        | .decodeError => Except.error e) = Except.ok v
    rw [hloads, h]
  · intro step i st info rest e he
    show runToolLoop step (i + 1) rest (runToolStep st info (step i)) = _
    rw [hstep st info (step i) e he]

theorem claim_C8_safe_json_loads_witness :
    rawDecode c8TrailingArg.toList =
      some (.obj [("query", .str "laptop")], " junk after".toList) ∧
    (" junk after".toList.dropWhile isJsonWs ≠ []) ∧
    safeJsonLoads (.argStr c8TrailingArg) = .ok (.obj [("query", .str "laptop")]) ∧
    safeJsonLoads (.argObj (.obj [("query", .str "myszka")])) =
      .ok (.obj [("query", .str "myszka")]) ∧
    safeJsonLoads c8BadInfo.arguments = .error .decodeError ∧
    runToolLoop noToolStep 0 [c8BadInfo] ⟨"c", none, [], []⟩ =
      runToolLoop noToolStep 1 [] ⟨"c", none, [], [errorPayload "Expecting value"]⟩ := by
  have hraw : rawDecode c8TrailingArg.toList =
      some (.obj [("query", .str "laptop")], " junk after".toList) := rfl
  have hne : " junk after".toList.dropWhile isJsonWs ≠ [] := by decide
  have hbad : safeJsonLoads c8BadInfo.arguments = .error .decodeError := rfl
  refine ⟨hraw, hne, ?_, ?_, hbad, ?_⟩
  · exact claim_C8_safe_json_loads.1 c8TrailingArg _ _ hraw hne
  · exact claim_C8_safe_json_loads.2.1 (.obj [("query", .str "myszka")])
  · have := claim_C8_safe_json_loads.2.2.2 noToolStep 0 ⟨"c", none, [], []⟩
      c8BadInfo [] .decodeError hbad
    simpa using this

theorem findIdx_dropWhile_aux (c : Char) :
    ∀ (l : List Char) (i : ℕ), c ∈ l →
      ∃ k, l.findIdx? (fun x => x == c) i = some (i + k) ∧
        l.drop k = l.dropWhile (fun x => x != c) ∧ k < l.length := by
  intro l
  induction l with
  | nil => intro i h; simp at h
  | cons a t ih =>
    intro i h
    by_cases ha : a = c
    · subst ha
      exact ⟨0, by simp [List.findIdx?_cons], by simp [List.dropWhile_cons], by simp⟩
    · have hmem : c ∈ t := by
        rcases List.mem_cons.mp h with hq | hm
        · exact absurd hq.symm ha
        · exact hm
      obtain ⟨k, hfind, hdrop, hlen⟩ := ih (i + 1) hmem
      refine ⟨k + 1, ?_, ?_, ?_⟩
      · rw [List.findIdx?_cons, if_neg (by simp [ha])]
        rw [hfind]
        congr 1
        omega
      · rw [List.drop_succ_cons, List.dropWhile_cons, if_pos (by simp [ha])]
        exact hdrop
      · simp
        omega

theorem dropWhile_ne_head (c : Char) :
    ∀ l : List Char, c ∈ l → ∃ t, l.dropWhile (fun x => x != c) = c :: t := by
  intro l
  induction l with
  | nil => intro h; simp at h
  | cons a t ih =>
    intro h
    by_cases ha : a = c
    · subst ha
      exact ⟨t, by simp [List.dropWhile_cons]⟩
    · have hmem : c ∈ t := by
        rcases List.mem_cons.mp h with hq | hm
        · exact absurd hq.symm ha
        · exact hm
      obtain ⟨t1, ht1⟩ := ih hmem
      exact ⟨t1, by rw [List.dropWhile_cons, if_pos (by simp [ha])]; exact ht1⟩

theorem sliceStart_eq (l : List Char) (h : '{' ∈ l) :
    (if pyFind l '{' > 0 then l.drop (pyFind l '{').toNat else l) =
      l.dropWhile (fun x => x != '{') := by
  obtain ⟨k, hfind, hdrop, _⟩ := findIdx_dropWhile_aux '{' l 0 h
  rw [zero_add] at hfind
  unfold pyFind
  rw [hfind]
  by_cases hk : ((k : ℤ) > 0)
  · rw [if_pos hk]
    rw [Int.toNat_natCast]
    exact hdrop
  · have hk0 : k = 0 := by omega
    subst hk0
    rw [if_neg hk]
    simpa using hdrop

theorem sliceEnd_eq (r : List Char) (t : List Char) (hr : r = '{' :: t) :
    (if pyRfind r '}' > 0 && pyRfind r '}' < (r.length : ℤ) - 1
      then r.take ((pyRfind r '}').toNat + 1) else r) =
    (if '}' ∈ r then (r.reverse.dropWhile (fun x => x != '}')).reverse else r) := by
  by_cases hm : '}' ∈ r
  · rw [if_pos hm]
    obtain ⟨k, hfind, hdrop, hlen⟩ :=
      findIdx_dropWhile_aux '}' r.reverse 0 (List.mem_reverse.mpr hm)
    rw [zero_add] at hfind
    have hlenrev : r.reverse.length = r.length := List.length_reverse r
    rw [hlenrev] at hlen
    have hpy : pyRfind r '}' = (r.length : ℤ) - 1 - k := by
      unfold pyRfind
      rw [hfind]
    rw [hpy, ← hdrop]
    by_cases hk0 : k = 0
    · subst hk0
      simp only [Nat.cast_zero]
      have hcond : ¬ ((decide ((r.length : ℤ) - 1 - 0 > 0) &&
          decide ((r.length : ℤ) - 1 - 0 < (r.length : ℤ) - 1)) = true) := by
        simp
      rw [if_neg hcond]
      simp
    · by_cases hk1 : k = r.length - 1
      · exfalso
        obtain ⟨t2, ht2⟩ := dropWhile_ne_head '}' r.reverse (List.mem_reverse.mpr hm)
        have hrev : r.reverse = t.reverse ++ ['{'] := by rw [hr]; simp
        have hlen2 : r.length - 1 = t.reverse.length := by rw [hr]; simp
        have hsingle : r.reverse.drop k = ['{'] := by
          rw [hk1, hlen2, hrev, List.drop_left]
        rw [hdrop, ht2] at hsingle
        simp at hsingle
      · have hk2 : 1 ≤ k ∧ k ≤ r.length - 2 := by omega
        have hrpos : 0 < r.length := by rw [hr]; simp
        have hcond : ((decide ((r.length : ℤ) - 1 - k > 0) &&
            decide ((r.length : ℤ) - 1 - k < (r.length : ℤ) - 1)) = true) := by
          simp only [Bool.and_eq_true, decide_eq_true_eq]
          omega
        rw [if_pos hcond]
        have htn : (((r.length : ℤ) - 1 - k).toNat + 1) = r.length - k := by omega
        rw [htn, List.reverse_drop, hlenrev, List.reverse_reverse]
  · rw [if_neg hm]
    have hnone : r.reverse.findIdx? (fun x => x == '}') = none := by
      rw [List.findIdx?_eq_none_iff]
      intro x hx
      have : x ≠ '}' := fun hq => hm (hq ▸ List.mem_reverse.mp hx)
      simp [this]
    have hpy : pyRfind r '}' = -1 := by
      unfold pyRfind
      rw [hnone]
    rw [hpy]
    simp

theorem sliceJsonBraces_eq_spec (l : List Char) (h : '{' ∈ l) :
    sliceJsonBraces l = specSliceJson l := by
  unfold sliceJsonBraces specSliceJson dropBeforeFirstBrace dropAfterLastBrace
  dsimp only
  rw [if_pos h, sliceStart_eq l h]
  obtain ⟨t, ht⟩ := dropWhile_ne_head '{' l h
  exact sliceEnd_eq _ t ht

/-- C5: the judge-response parser's brace slicing coincides, for every
response containing a `{`, with the spec's description (discard everything
before the first `{` and after the last `}`); code-fence markers are
stripped first; and on the spec's prefix+object+suffix example exactly the
embedded JSON object is extracted and its five criterion entries are the
ones used by the evaluation. -/
theorem claim_C5_parser_extraction :
    (∀ l : List Char, '{' ∈ l → sliceJsonBraces l = specSliceJson l) ∧
    extractJsonText c5Example.toList = c5ObjectText.toList ∧
    extractJsonText ("```json\n" ++ c5ObjectText ++ "\n```").toList =
      c5ObjectText.toList ∧
    (parseEvaluationResponse EvaluationConfig.default c5Example sampleTestResult
        sampleCtx "t5").scores =
      [CriteriaScore.make .task_performance .excellent "ok",
       CriteriaScore.make .response_quality .satisfactory "ok",
       CriteriaScore.make .language_quality .good "ok",
       CriteriaScore.make .tool_usage .good "ok",
       CriteriaScore.make .factual_accuracy .poor "ok"] :=
  ⟨sliceJsonBraces_eq_spec, rfl, rfl, rfl⟩

theorem claim_C5_parser_extraction_witness :
    ('{' ∈ "Sure! \x7b\"a\": 1\x7d bye".toList) ∧
    sliceJsonBraces "Sure! \x7b\"a\": 1\x7d bye".toList =
      specSliceJson "Sure! \x7b\"a\": 1\x7d bye".toList := by
  have hm : '{' ∈ "Sure! \x7b\"a\": 1\x7d bye".toList := by decide
  exact ⟨hm, claim_C5_parser_extraction.1 _ hm⟩

theorem scoreLevelMap_clamped (v : ℤ) (h1 : 1 ≤ v) (h5 : v ≤ 5) :
    ∃ level, scoreLevelMap v = some level ∧ SCORE_VALUES level = v := by
  interval_cases v
  · exact ⟨.very_poor, rfl, rfl⟩
  · exact ⟨.poor, rfl, rfl⟩
  · exact ⟨.satisfactory, rfl, rfl⟩
  · exact ⟨.good, rfl, rfl⟩
  · exact ⟨.excellent, rfl, rfl⟩

theorem consensusScoreFor_spec (evals : List (String × EvaluationResult))
    (criteria : EvaluationCriteria) :
    (gatherCriterion evals criteria = [] →
      consensusScoreFor evals criteria = some none) ∧
    (gatherCriterion evals criteria ≠ [] →
      ∃ level,
        scoreLevelMap (max 1 (min 5 (pyRound
          ((((gatherCriterion evals criteria).map (fun x => x.1)).map
              (fun v : ℤ => (v : ℚ))).sum /
            (((gatherCriterion evals criteria).map (fun x => x.1)).length : ℚ))))) =
          some level ∧
        SCORE_VALUES level = max 1 (min 5 (pyRound
          ((((gatherCriterion evals criteria).map (fun x => x.1)).map
              (fun v : ℤ => (v : ℚ))).sum /
            (((gatherCriterion evals criteria).map (fun x => x.1)).length : ℚ)))) ∧
        consensusScoreFor evals criteria = some (some (CriteriaScore.make criteria level
          ("Consensus from " ++
            toString ((gatherCriterion evals criteria).map (fun x => x.1)).length ++
            " judges (scores: " ++
            pyIntListRepr ((gatherCriterion evals criteria).map (fun x => x.1)) ++
            "). " ++
            String.intercalate "; " ((gatherCriterion evals criteria).map (fun x => x.2)))))) := by
  constructor
  · intro hg
    unfold consensusScoreFor
    rw [hg]
  · intro hg
    cases hg2 : gatherCriterion evals criteria with
    | nil => exact absurd hg2 hg
    | cons g gs =>
      have h1 : 1 ≤ max 1 (min 5 (pyRound
          ((((g :: gs).map (fun x => x.1)).map (fun v : ℤ => (v : ℚ))).sum /
            (((g :: gs).map (fun x => x.1)).length : ℚ)))) := le_max_left _ _
      have h5 : max 1 (min 5 (pyRound
          ((((g :: gs).map (fun x => x.1)).map (fun v : ℤ => (v : ℚ))).sum /
            (((g :: gs).map (fun x => x.1)).length : ℚ)))) ≤ 5 :=
        max_le (by norm_num) (min_le_left _ _)
      obtain ⟨level, hmap, hval⟩ := scoreLevelMap_clamped _ h1 h5
      refine ⟨level, hmap, hval, ?_⟩
      unfold consensusScoreFor
      rw [hg2]
      dsimp only
      rw [hmap]

theorem consensusScoresLoop_criteria_mem (evals : List (String × EvaluationResult)) :
    ∀ (cl : List EvaluationCriteria) (tl : List CriteriaScore),
      consensusScoresLoop evals cl = some tl →
      ∀ cs ∈ tl, cs.criteria ∈ cl := by
  intro cl
  induction cl with
  | nil =>
    intro tl h cs hm
    simp only [consensusScoresLoop] at h
    injection h with h
    subst h
    simp at hm
  | cons c0 rest ih =>
    intro tl h cs hm
    simp only [consensusScoresLoop] at h
    split at h
    · exact absurd h (by simp)
    · exact List.mem_cons_of_mem c0 (ih tl h cs hm)
    · rename_i cs0 hfor
      cases hr : consensusScoresLoop evals rest with
      | none => rw [hr] at h; exact absurd h (by simp)
      | some tl2 =>
        rw [hr] at h
        simp only [Option.map] at h
        injection h with h
        subst h
        rcases hm with _ | hm
        · obtain ⟨level, reasoning, hcs⟩ := consensusScoreFor_shape evals c0 cs hfor
          rw [hcs]
          exact List.mem_cons_self _ _
        · exact List.mem_cons_of_mem c0 (ih tl2 hr cs (by assumption))

theorem consensusScoresLoop_find (evals : List (String × EvaluationResult)) :
    ∀ (cl : List EvaluationCriteria) (scores : List CriteriaScore),
      cl.Nodup →
      consensusScoresLoop evals cl = some scores →
      ∀ criteria ∈ cl,
        ∃ o, consensusScoreFor evals criteria = some o ∧
          scores.find? (fun s => decide (s.criteria = criteria)) = o := by
  intro cl
  induction cl with
  | nil => intro scores _ _ criteria hmem; simp at hmem
  | cons c0 rest ih =>
    intro scores hnd h criteria hmem
    have hnd0 : c0 ∉ rest := (List.nodup_cons.mp hnd).1
    have hndr : rest.Nodup := (List.nodup_cons.mp hnd).2
    simp only [consensusScoresLoop] at h
    split at h
    · exact absurd h (by simp)
    · rename_i hfor
      rcases List.mem_cons.mp hmem with rfl | hmem2
      · refine ⟨none, hfor, ?_⟩
        rw [List.find?_eq_none]
        intro cs hcs
        have : cs.criteria ∈ rest := consensusScoresLoop_criteria_mem evals rest scores h cs hcs
        simp only [decide_eq_true_eq]
        intro hq
        exact hnd0 (hq ▸ this)
      · exact ih scores hndr h criteria hmem2
    · rename_i cs0 hfor
      cases hr : consensusScoresLoop evals rest with
      | none => rw [hr] at h; exact absurd h (by simp)
      | some tl =>
        rw [hr] at h
        simp only [Option.map] at h
        injection h with h
        subst h
        obtain ⟨level, reasoning, hcs0⟩ := consensusScoreFor_shape evals c0 cs0 hfor
        rcases List.mem_cons.mp hmem with rfl | hmem2
        · refine ⟨some cs0, hfor, ?_⟩
          rw [List.find?_cons_of_pos]
          rw [hcs0]
          simp [CriteriaScore.make]
        · have hne : cs0.criteria ≠ criteria := by
            rw [hcs0]
            simp only [CriteriaScore.make]
            intro hq
            exact hnd0 (hq ▸ hmem2)
          obtain ⟨o, hfor2, hfind2⟩ := ih tl hndr hr criteria hmem2
          refine ⟨o, hfor2, ?_⟩
          rw [List.find?_cons_of_neg]
          · exact hfind2
          · simp [hne]

/-- C9: a consensus evaluation's per-criterion score is the banker's-round
of the mean of that criterion's numeric values across the judges that
scored it, clamped to 1-5 and mapped back to the ordinal level whose
canonical value it is, with the judges' reasonings (each prefixed by its
judge id in `gatherCriterion`) concatenated; a criterion no judge scored is
absent; and the consensus `overall_score` is the plain arithmetic mean of
the judges' overall scores, not a recomputation from the consensus
per-criterion scores. -/
theorem claim_C9_consensus (evals : List (String × EvaluationResult)) (now : String)
    (c : EvaluationResult) (h : createConsensusForTest evals now = some c) :
    c.overall_score =
      (evals.map (fun je => je.2.overall_score)).sum / (evals.length : ℚ) ∧
    ∀ criteria : EvaluationCriteria,
      (gatherCriterion evals criteria = [] →
        c.scores.find? (fun s => decide (s.criteria = criteria)) = none) ∧
      (gatherCriterion evals criteria ≠ [] →
        ∃ level,
          scoreLevelMap (max 1 (min 5 (pyRound
            ((((gatherCriterion evals criteria).map (fun x => x.1)).map
                (fun v : ℤ => (v : ℚ))).sum /
              (((gatherCriterion evals criteria).map (fun x => x.1)).length : ℚ))))) =
            some level ∧
          SCORE_VALUES level = max 1 (min 5 (pyRound
            ((((gatherCriterion evals criteria).map (fun x => x.1)).map
                (fun v : ℤ => (v : ℚ))).sum /
              (((gatherCriterion evals criteria).map (fun x => x.1)).length : ℚ)))) ∧
          c.scores.find? (fun s => decide (s.criteria = criteria)) =
            some (CriteriaScore.make criteria level
              ("Consensus from " ++
                toString ((gatherCriterion evals criteria).map (fun x => x.1)).length ++
                " judges (scores: " ++
                pyIntListRepr ((gatherCriterion evals criteria).map (fun x => x.1)) ++
                "). " ++
                String.intercalate "; "
                  ((gatherCriterion evals criteria).map (fun x => x.2))))) := by
  cases evals with
  | nil => simp [createConsensusForTest] at h
  | cons first rest =>
    unfold createConsensusForTest at h
    cases hloop : consensusScoresLoop (first :: rest) EvaluationCriteria.all with
    | none => rw [hloop] at h; exact absurd h (by simp)
    | some consensus_scores =>
      rw [hloop] at h
      injection h with h
      subst h
      constructor
      · show ((first :: rest).map (fun je => je.2.overall_score)).sum /
            (((first :: rest).map (fun je => je.2.overall_score)).length : ℚ) = _
        rw [List.length_map]
      · intro criteria
        have hmem : criteria ∈ EvaluationCriteria.all := by
          cases criteria <;> simp [EvaluationCriteria.all]
        have hnd : EvaluationCriteria.all.Nodup := by decide
        obtain ⟨o, hfor, hfind⟩ := consensusScoresLoop_find (first :: rest)
          EvaluationCriteria.all consensus_scores hnd hloop criteria hmem
        constructor
        · intro hg
          have hfor2 := (consensusScoreFor_spec (first :: rest) criteria).1 hg
          rw [hfor2] at hfor
          injection hfor with hfor
          rw [← hfor] at hfind
          exact hfind
        · intro hg
          obtain ⟨level, hmap, hval, hforspec⟩ :=
            (consensusScoreFor_spec (first :: rest) criteria).2 hg
          rw [hforspec] at hfor
          injection hfor with hfor
          rw [← hfor] at hfind
          exact ⟨level, hmap, hval, hfind⟩

theorem consensusScoreFor_isSome (evals : List (String × EvaluationResult))
    (criteria : EvaluationCriteria) :
    ∃ o, consensusScoreFor evals criteria = some o := by
  by_cases hg : gatherCriterion evals criteria = []
  · exact ⟨none, (consensusScoreFor_spec evals criteria).1 hg⟩
  · obtain ⟨level, _, _, hfor⟩ := (consensusScoreFor_spec evals criteria).2 hg
    exact ⟨_, hfor⟩

theorem consensusScoresLoop_isSome (evals : List (String × EvaluationResult)) :
    ∀ cl : List EvaluationCriteria, ∃ l, consensusScoresLoop evals cl = some l := by
  intro cl
  induction cl with
  | nil => exact ⟨[], rfl⟩
  | cons c0 rest ih =>
    obtain ⟨tl, htl⟩ := ih
    obtain ⟨o, ho⟩ := consensusScoreFor_isSome evals c0
    cases o with
    | none =>
      refine ⟨tl, ?_⟩
      simp only [consensusScoresLoop]
      rw [ho, htl]
    | some cs0 =>
      refine ⟨cs0 :: tl, ?_⟩
      simp only [consensusScoresLoop]
      rw [ho, htl]
      rfl

theorem createConsensusForTest_exists (first : String × EvaluationResult)
    (rest : List (String × EvaluationResult)) (now : String) :
    ∃ c, createConsensusForTest (first :: rest) now = some c := by
  obtain ⟨l, hl⟩ := consensusScoresLoop_isSome (first :: rest) EvaluationCriteria.all
  unfold createConsensusForTest
  rw [hl]
  exact ⟨_, rfl⟩

theorem claim_C9_consensus_witness :
    ∃ c, createConsensusForTest w9evals "t9" = some c ∧
      c.overall_score = (w9evals.map (fun je => je.2.overall_score)).sum /
        (w9evals.length : ℚ) ∧
      c.scores.find? (fun s => decide (s.criteria = .response_quality)) = none ∧
      ∃ level reasoning,
        c.scores.find? (fun s => decide (s.criteria = .task_performance)) =
          some (CriteriaScore.make .task_performance level reasoning) := by
  obtain ⟨c, hE⟩ := createConsensusForTest_exists ("j1", w9eval1) [("j2", w9eval2)] "t9"
  have hE2 : createConsensusForTest w9evals "t9" = some c := hE
  obtain ⟨hov, hcrit⟩ := claim_C9_consensus w9evals "t9" c hE2
  have hgq : gatherCriterion w9evals .response_quality = [] := by decide
  have hgt : gatherCriterion w9evals .task_performance ≠ [] := by decide
  obtain ⟨level, _, _, hfind⟩ := (hcrit .task_performance).2 hgt
  exact ⟨c, hE2, hov, (hcrit .response_quality).1 hgq, level, _, hfind⟩

theorem countP_set_eq (p : WorkerPhase → Bool) :
    ∀ (l : List WorkerPhase) (i : ℕ) (a b : WorkerPhase),
      l.get? i = some a →
      (l.set i b).countP p + (if p a then 1 else 0) =
        l.countP p + (if p b then 1 else 0) := by
  intro l
  induction l with
  | nil => intro i a b h; simp at h
  | cons x t ih =>
    intro i a b h
    cases i with
    | zero =>
      simp only [List.get?] at h
      injection h with h
      subst h
      simp only [List.set, List.countP_cons]
      split_ifs <;> omega
    | succ i =>
      simp only [List.get?] at h
      simp only [List.set, List.countP_cons]
      have := ih i a b h
      cases hpx : p x <;> simp [hpx] <;> omega

theorem schedInvariant (config : BenchmarkConfig) (m : ℕ) :
    ∀ s, SchedReachable config m s →
      s.avail + runningCount s ≤ config.concurrent_models := by
  intro s h
  induction h with
  | init =>
    simp [initSchedState, runningCount, List.countP_replicate]
  | step hr hstep ih =>
    rename_i s t
    cases hstep with
    | acquire i hget ha =>
      have hc := countP_set_eq (fun p => p == WorkerPhase.running) s.workers i
        .waiting .running hget
      simp only [runningCount] at *
      simp at hc
      omega
    | release i hget =>
      have hc := countP_set_eq (fun p => p == WorkerPhase.running) s.workers i
        .running .finished hget
      simp only [runningCount] at *
      simp at hc
      omega

/-- C10: under the semaphore admission model of `run_benchmark`, in every
reachable scheduler state at most `concurrent_models` model workers are
simultaneously in their running phase (the default bound being 3); a
waiting worker can enter only when a semaphore slot is free. -/
theorem claim_C10_concurrency_bound :
    (∀ (config : BenchmarkConfig) (numModels : ℕ) (s : ExecSchedState),
      SchedReachable config numModels s →
      runningCount s ≤ config.concurrent_models) ∧
    ({} : BenchmarkConfig).concurrent_models = 3 := by
  refine ⟨?_, rfl⟩
  intro config m s h
  have := schedInvariant config m s h
  omega

theorem claim_C10_concurrency_bound_witness :
    ∃ s : ExecSchedState, SchedReachable {} 5 s ∧ runningCount s = 2 ∧
      runningCount s ≤ ({} : BenchmarkConfig).concurrent_models := by
  have h0 : SchedReachable {} 5 (initSchedState {} 5) := SchedReachable.init
  have h1 : SchedReachable {} 5 _ :=
    SchedReachable.step h0
      (SchedStep.acquire (initSchedState {} 5) 0 (by rfl) (by decide))
  have h2 : SchedReachable {} 5 _ :=
    SchedReachable.step h1 (SchedStep.acquire _ 1 (by rfl) (by decide))
  exact ⟨_, h2, by decide, claim_C10_concurrency_bound.1 {} 5 _ h2⟩
